import Mathlib

/-!
scantool: witness-stack (segwit) recognition, input field typing, the REST
dispatcher and the settings check.

A shallow embedding of `src/btc/segwit.go`, `src/btc/input.go`, of
`RestApiV2.HandleRequest` in `src/rest/rest-v2.go` and of
`settingsManager.ExitOnError` in `src/app/settings.go`.

* A Go `byte` is a `Fin 256`; a `[]byte` is a `List Byte`.
* A Go `int` is an `Int`; `uint32(x)` of an `int` is reduction modulo `2^32`.
* Go slice indexing aborts the program (a run-time panic) when the index is out of
  range.  Every method that indexes a slice therefore returns an `Option`:
  `none` is the panic, `some v` is a normal return of `v`.
* A method that writes with `fmt.Println` returns the lines it wrote next to its
  result.
* An explicit `panic(msg)` is `Except.error msg`.
* The `Script` type, its parser `NewScript`, the stack-item validators and classifiers
  and the type `RestError` live in files of the packages that are not part of the
  sources at hand; they are the fields of `ScriptEnv`, `InputEnv` and `Rest.RestEnv`,
  and every statement below holds for every such environment.
-/

namespace Scantool

/-- A Go `byte`. -/
abbrev Byte := Fin 256

/-- Go slice indexing `xs[i]` with an `int` index: `none` is the out-of-range panic. -/
def index {α : Type} (xs : List α) (i : Int) : Option α :=
  if i < 0 then none else xs[i.toNat]?

/-- Go conversion `uint32(i)` of an `int`. -/
def uint32 (i : Int) : Nat := (i % 4294967296).toNat

/-- Go `uint32` subtraction `a - b`. -/
def uint32Sub (a b : Nat) : Nat := (a + 4294967296 - b % 4294967296) % 4294967296

/-- Go `fmt` verb `%d` applied to an integer: its decimal digits, with a minus sign when
negative. -/
def fmtD (n : Int) : String := toString n

/-- Go `fmt` verb `%X` applied to a byte: upper-case hexadecimal digits, without prefix
and without padding. -/
def fmtX (b : Byte) : String := String.mk ((Nat.toDigits 16 b.val).map Char.toUpper)

/-- Source: `type SegwitField struct { rawBytes []byte; dataType string }` -/
structure SegwitField where
  rawBytes : List Byte
  dataType : String
deriving DecidableEq, Repr

/-- Source: `func (swf *SegwitField) AsBytes() []byte` -/
def SegwitField.AsBytes (swf : SegwitField) : List Byte := swf.rawBytes

/-- Source: `func (swf *SegwitField) SetType(dataType string)` -/
def SegwitField.SetType (swf : SegwitField) (dataType : String) : SegwitField :=
  { swf with dataType := dataType }

/-- Source: `func (swf *SegwitField) AsType() string` -/
def SegwitField.AsType (swf : SegwitField) : String := swf.dataType

/-- Parameters of the embedding: the `Script` type, `NewScript`, `Script.IsNil`,
`Script.HasParseError`, the three stack-item validators, the script-field accessors,
`Script.SetFieldType`, `Script.IsOrdinal` and `GetStackItemType` are code of package
`btc` that `segwit.go` calls and that is not among the sources.  Nothing is assumed
about them; `zero` is the Go zero value `Script{}`. -/
structure ScriptEnv where
  /-- The Go type `Script`. -/
  Script : Type
  /-- The composite literal `Script{}`. -/
  zero : Script
  /-- Source: `func NewScript(rawBytes []byte) Script` -/
  NewScript : List Byte → Script
  /-- Source: `func (s *Script) IsNil() bool` -/
  IsNil : Script → Bool
  /-- Source: `func (s *Script) HasParseError() bool` -/
  HasParseError : Script → Bool
  /-- Source: `func IsValidECSignature(b []byte) bool` -/
  IsValidECSignature : List Byte → Bool
  /-- Source: `func IsValidECPublicKey(b []byte) bool` -/
  IsValidECPublicKey : List Byte → Bool
  /-- Source: `func IsValidSchnorrSignature(b []byte) bool` -/
  IsValidSchnorrSignature : List Byte → Bool
  /-- The element type of the slice `Script.GetFields()` returns in `segwit.go`. -/
  Field : Type
  /-- Source: `func (s *Script) GetFields()`, as `segwit.go` uses it. -/
  GetFields : Script → List Field
  /-- Source: `field.IsOpcode()` on an element of `GetFields()`. -/
  IsOpcode : Field → Bool
  /-- Source: `field.AsHex()` on an element of `GetFields()`. -/
  AsHex : Field → String
  /-- Source: `field.AsBytes()` on an element of `GetFields()`. -/
  AsBytes : Field → List Byte
  /-- Source: `func (s *Script) SetFieldType(f int, fieldType string)` -/
  SetFieldType : Script → Int → String → Script
  /-- Source: `func (s *Script) IsOrdinal() bool` -/
  IsOrdinal : Script → Bool
  /-- Source: `func GetStackItemType(b []byte, tapscript bool) string`, the two-argument
  classifier `segwit.go` calls. -/
  GetStackItemType : List Byte → Bool → String

/-- Source: `type Segwit struct { fields []SegwitField; witnessScript Script; tapScript Script;
tapScriptIndex uint32 }` -/
structure Segwit (Script : Type) where
  fields : List SegwitField
  witnessScript : Script
  tapScript : Script
  tapScriptIndex : Nat

/-- Source: `const INVALID_CB_INDEX = uint32(0xffffffff)` -/
def INVALID_CB_INDEX : Nat := 0xffffffff

/-- Source: `func NewSegwit(rawFields [][]byte) Segwit`: each field is
`SegwitField{rawBytes: field}` and the result is
`Segwit{fields: fields, tapScriptIndex: INVALID_CB_INDEX}`; the members that are not
named hold their zero values. -/
def NewSegwit (E : ScriptEnv) (rawFields : List (List Byte)) : Segwit E.Script :=
  { fields := rawFields.map (fun field => { rawBytes := field, dataType := "" }),
    witnessScript := E.zero, tapScript := E.zero, tapScriptIndex := INVALID_CB_INDEX }

namespace Segwit

variable {Script : Type}

/-- Source: `func (s *Segwit) HasAnnex() bool`:
`fieldCount > 1 && s.fields[fieldCount-1].AsBytes()[0] == 0x50`. -/
def HasAnnex (s : Segwit Script) : Option Bool :=
  let fieldCount : Int := s.fields.length
  if fieldCount > 1 then do
    let last ← index s.fields (fieldCount - 1)
    let b ← index last.AsBytes 0
    pure (b == 0x50)
  else
    pure false

/-- Source: `func (s *Segwit) GetControlBlockIndex() uint32` -/
def GetControlBlockIndex (s : Segwit Script) : Option Nat := do
  let minimumFieldCount : Int := 2
  let actualFieldCount : Int := s.fields.length
  let controlBlockIndex : Int := actualFieldCount - 1
  let annex ← s.HasAnnex
  let minimumFieldCount := if annex then minimumFieldCount + 1 else minimumFieldCount
  let controlBlockIndex := if annex then controlBlockIndex - 1 else controlBlockIndex
  if actualFieldCount < minimumFieldCount then
    pure INVALID_CB_INDEX
  else do
    let cb ← index s.fields controlBlockIndex
    let controlBlockLength : Int := cb.AsBytes.length
    let validControlBlockLength : Bool :=
      decide (controlBlockLength ≥ 33) && (Int.tmod (controlBlockLength - 1) 32 == 0)
    if !validControlBlockLength then
      pure INVALID_CB_INDEX
    else
      pure (uint32 controlBlockIndex)

/-- The `for f := 0; f < len(s.fields); f++` loop of `IsValidP2wpkh` together with the
code after it, run on the fields still to visit with the current value of
`nonEmptyFieldCount`. -/
def IsValidP2wpkh.loop (E : ScriptEnv) : List SegwitField → Int → Bool
  | [], nonEmptyFieldCount =>
    if nonEmptyFieldCount != 2 then false else true
  | field :: rest, nonEmptyFieldCount =>
    let fieldBytes := field.AsBytes
    if fieldBytes.length > 0 then
      if nonEmptyFieldCount == 0 then
        if !E.IsValidECSignature fieldBytes then false
        else IsValidP2wpkh.loop E rest (nonEmptyFieldCount + 1)
      else if nonEmptyFieldCount == 1 then
        if !E.IsValidECPublicKey fieldBytes then false
        else IsValidP2wpkh.loop E rest (nonEmptyFieldCount + 1)
      else IsValidP2wpkh.loop E rest (nonEmptyFieldCount + 1)
    else IsValidP2wpkh.loop E rest nonEmptyFieldCount

/-- Source: `func (s *Segwit) IsValidP2wpkh() bool` -/
def IsValidP2wpkh (E : ScriptEnv) (s : Segwit E.Script) : Bool :=
  if s.fields.length < 2 then false
  else IsValidP2wpkh.loop E s.fields 0

/-- The field loop of `IsValidTaprootKeyPath` together with the final
`return nonEmptyFieldCount == exactFieldCount`, run on the fields still to visit with
the current value of `nonEmptyFieldCount`. -/
def IsValidTaprootKeyPath.loop (E : ScriptEnv) (exactFieldCount : Int) :
    List SegwitField → Int → Bool
  | [], nonEmptyFieldCount => nonEmptyFieldCount == exactFieldCount
  | field :: rest, nonEmptyFieldCount =>
    let fieldBytes := field.AsBytes
    if fieldBytes.length > 0 then
      if nonEmptyFieldCount == 0 then
        if !E.IsValidSchnorrSignature fieldBytes then false
        else IsValidTaprootKeyPath.loop E exactFieldCount rest (nonEmptyFieldCount + 1)
      else IsValidTaprootKeyPath.loop E exactFieldCount rest (nonEmptyFieldCount + 1)
    else IsValidTaprootKeyPath.loop E exactFieldCount rest nonEmptyFieldCount

/-- Source: `func (s *Segwit) IsValidTaprootKeyPath() bool` -/
def IsValidTaprootKeyPath (E : ScriptEnv) (s : Segwit E.Script) : Option Bool := do
  let exactFieldCount : Int := 1
  let annex ← s.HasAnnex
  let exactFieldCount := if annex then exactFieldCount + 1 else exactFieldCount
  pure (IsValidTaprootKeyPath.loop E exactFieldCount s.fields 0)

/-- Source: `func (s *Segwit) parseWitnessScript() Script` -/
def parseWitnessScript (E : ScriptEnv) (s : Segwit E.Script) : Option E.Script :=
  let fieldCount : Int := s.fields.length
  if fieldCount < 1 then
    pure E.zero
  else do
    let witnessScriptIndex := fieldCount - 1
    let field ← index s.fields witnessScriptIndex
    let witnessScriptBytes := field.AsBytes
    let witnessScript := E.NewScript witnessScriptBytes
    if E.HasParseError witnessScript then
      pure E.zero
    else
      pure witnessScript

/-- Source: `func (s *Segwit) IsValidP2wsh() bool` -/
def IsValidP2wsh (E : ScriptEnv) (s : Segwit E.Script) : Option Bool := do
  let witnessScript ← parseWitnessScript E s
  pure (!E.IsNil witnessScript)

/-- Source: `func (s *Segwit) parseTapScript() (Script, uint32)` -/
def parseTapScript (E : ScriptEnv) (s : Segwit E.Script) : Option (E.Script × Nat) := do
  let controlBlockIndex ← s.GetControlBlockIndex
  if controlBlockIndex == INVALID_CB_INDEX then
    pure (E.zero, INVALID_CB_INDEX)
  else do
    let tapScriptIndex := uint32Sub controlBlockIndex 1
    let field ← index s.fields tapScriptIndex
    let tapScriptBytes := field.AsBytes
    let tapScript := E.NewScript tapScriptBytes
    if E.IsNil tapScript || E.HasParseError tapScript then
      pure (E.zero, INVALID_CB_INDEX)
    else
      pure (tapScript, tapScriptIndex)

/-- Source: `func (s *Segwit) IsValidTaprootScriptPath() bool` -/
def IsValidTaprootScriptPath (E : ScriptEnv) (s : Segwit E.Script) : Option Bool := do
  let (tapScript, _) ← parseTapScript E s
  pure (!E.IsNil tapScript)

/-- Source: `func (s *Segwit) GetTapLeafVersion() byte` -/
def GetTapLeafVersion (E : ScriptEnv) (s : Segwit E.Script) : Option Byte := do
  let cbIndex ← s.GetControlBlockIndex
  if E.IsNil s.tapScript || cbIndex == INVALID_CB_INDEX then
    pure 0
  else do
    let cb ← index s.fields cbIndex
    let b ← index cb.AsBytes 0
    pure (b &&& 0xfe)

/-- Source: `func (s *Segwit) GetTapTweakParity() (byte, error)`; the error is `none` for Go
`nil` and `some msg` for `errors.New(msg)`. -/
def GetTapTweakParity (E : ScriptEnv) (s : Segwit E.Script) :
    Option (Byte × Option String) := do
  let cbIndex ← s.GetControlBlockIndex
  if E.IsNil s.tapScript || cbIndex == INVALID_CB_INDEX then
    pure (0, some "Getting parity for field other than control block.")
  else do
    let cb ← index s.fields cbIndex
    let b ← index cb.AsBytes 0
    pure (b &&& 0x01, none)

/-- The opening statements of `func (s *Segwit) SetTapScript(ts Script, i uint32)` that
compute `cbLeafCount`: `cbIndex := s.GetControlBlockIndex()` and, when it is not
`INVALID_CB_INDEX`, `cbLeafCount = (len(s.fields[cbIndex].AsBytes()) - 1) / 32`
(Go integer division truncates towards zero); otherwise `cbLeafCount` keeps its
initial value 0.  The two assignments before them do not touch `s.fields`. -/
def SetTapScript.cbLeafCount (s : Segwit Script) : Option Int := do
  let cbIndex ← s.GetControlBlockIndex
  if cbIndex != INVALID_CB_INDEX then do
    let cb ← index s.fields cbIndex
    pure (Int.tdiv ((cb.AsBytes.length : Int) - 1) 32)
  else
    pure 0

/-- Source: `func (s *Segwit) GetWitnessScript() Script` -/
def GetWitnessScript (s : Segwit Script) : Script := s.witnessScript

/-- Source: `func (s *Segwit) GetTapScript() (Script, uint32)` -/
def GetTapScript (s : Segwit Script) : Script × Nat := (s.tapScript, s.tapScriptIndex)

/-- Source: `func (s *Segwit) GetFieldCount() uint32`, which is `uint32(len(s.fields))`. -/
def GetFieldCount (s : Segwit Script) : Nat := uint32 (s.fields.length : Int)

/-- Source: `func (s *Segwit) GetFields() []SegwitField` -/
def GetFields (s : Segwit Script) : List SegwitField := s.fields

/-- Source: `func (s *Segwit) IsEmpty() bool`, which is `s.IsNil() || len(s.fields) == 0`;
a nil slice has length 0, so both disjuncts are covered by the length test. -/
def IsEmpty (s : Segwit Script) : Bool := s.fields.length == 0

/-- The statement `s.fields[k].SetType(dataType)`: `none` is the out-of-range panic. -/
def setType (fields : List SegwitField) (k : Int) (dataType : String) :
    Option (List SegwitField) := do
  let field ← index fields k
  pure (fields.set k.toNat (field.SetType dataType))

/-- The loop `for f, field := range witnessScriptFields` of `SetWitnessScript`, run on
the fields still to visit, with the index `f` of the first of them and the current
value of `s.witnessScript`. -/
def SetWitnessScript.loop (E : ScriptEnv) : List E.Field → Int → E.Script → E.Script
  | [], _, witnessScript => witnessScript
  | field :: rest, f, witnessScript =>
    if E.IsOpcode field then
      SetWitnessScript.loop E rest (f + 1) (E.SetFieldType witnessScript f (E.AsHex field))
    else
      SetWitnessScript.loop E rest (f + 1)
        (E.SetFieldType witnessScript f (E.GetStackItemType (E.AsBytes field) false))

/-- Source: `func (s *Segwit) SetWitnessScript(ws Script)` -/
def SetWitnessScript (E : ScriptEnv) (s : Segwit E.Script) (ws : E.Script) :
    Option (Segwit E.Script) := do
  let s := { s with witnessScript := ws }
  let fields ← setType s.fields ((s.fields.length : Int) - 1) "SERIALIZED WITNESS SCRIPT"
  let s := { s with fields := fields }
  let witnessScriptFields := E.GetFields s.witnessScript
  pure { s with witnessScript := SetWitnessScript.loop E witnessScriptFields 0 s.witnessScript }

/-- The loop `for f, field := range tapScriptFields` of `SetTapScript`, run on the
fields still to visit, with the index `f` of the first of them and the current value
of `s.tapScript` (on which `IsOrdinal` is called in each round). -/
def SetTapScript.loop (E : ScriptEnv) : List E.Field → Int → E.Script → E.Script
  | [], _, tapScript => tapScript
  | field :: rest, f, tapScript =>
    if !E.IsOpcode field then
      let itemType := E.GetStackItemType (E.AsBytes field) true
      let itemType :=
        if E.IsOrdinal tapScript && itemType == "Schnorr Signature" then
          E.GetStackItemType (E.AsBytes field) false
        else itemType
      SetTapScript.loop E rest (f + 1) (E.SetFieldType tapScript f itemType)
    else
      SetTapScript.loop E rest (f + 1) tapScript

/-- Source: `func (s *Segwit) SetTapScript(ts Script, i uint32)`.  The result is the
updated Segwit together with the lines written by `fmt.Println`, in order; `none` is
an out-of-range panic. -/
def SetTapScript (E : ScriptEnv) (s : Segwit E.Script) (ts : E.Script) (i : Nat) :
    Option (Segwit E.Script × List String) := do
  let s := { s with tapScript := ts }
  let s := { s with tapScriptIndex := i }
  let cbIndex ← s.GetControlBlockIndex
  let cbLeafCount ← SetTapScript.cbLeafCount s
  let out : List String :=
    if cbIndex != INVALID_CB_INDEX then []
    else ["Segwit has tap script but no control block."]
  -- set the field types for the Taproot Segwit fields
  let annex ← s.HasAnnex
  let s ←
    if annex then do
      let annexIndex : Int := (s.fields.length : Int) - 1
      let annexField ← index s.fields annexIndex
      let fields ← setType s.fields annexIndex
        ("Annex (" ++ fmtD annexField.AsBytes.length ++ " Bytes)")
      pure { s with fields := fields }
    else pure s
  let fields ← setType s.fields s.tapScriptIndex "SERIALIZED TAP SCRIPT"
  let s := { s with fields := fields }
  let leafCountLabel := "TapLea"
  let leafCountLabel :=
    if cbLeafCount == 1 then leafCountLabel ++ "f" else leafCountLabel ++ "ves"
  let (parity, err) ← GetTapTweakParity E s
  let out : List String :=
    match err with
    | some msg => out ++ [msg]
    | none => out
  let version ← GetTapLeafVersion E s
  let fields ← setType s.fields cbIndex
    ("Control Block (Version " ++ fmtX version ++ ", Parity " ++ fmtD parity.val ++ ", " ++
      fmtD cbLeafCount ++ " " ++ leafCountLabel ++ ")")
  let s := { s with fields := fields }
  -- set the field types for the Tap Script
  let tapScriptFields := E.GetFields s.tapScript
  pure ({ s with tapScript := SetTapScript.loop E tapScriptFields 0 s.tapScript }, out)

end Segwit

/-! ## Inputs (`src/btc/input.go`) -/

/-- Go `fmt.Println(operands...)`: the operands separated by single spaces (the line
written to standard output, without its newline). -/
def println (operands : List String) : String := String.intercalate " " operands

/-- Parameters of the embedding: the `Script` methods and the three-argument
`GetStackItemType` that `input.go` calls; they are code of package `btc` that is not
among the sources.  In `input.go` the elements of `GetFields()` are strings, and
`GetRawFieldTypes()` is a Go string, taken here as its bytes because the code indexes
it. -/
structure InputEnv (E : ScriptEnv) where
  /-- Source: `func (s *Script) IsEmpty() bool` -/
  IsEmpty : E.Script → Bool
  /-- Source: `func (s *Script) GetParsedFieldCount()` -/
  GetParsedFieldCount : E.Script → Int
  /-- Source: `func (s *Script) GetFields() []string`, as `input.go` uses it. -/
  GetFields : E.Script → List String
  /-- Source: `func (s *Script) GetRawFieldTypes() string` -/
  GetRawFieldTypes : E.Script → List Byte
  /-- Source: `func (s *Script) SetFieldTypes(fieldTypes []string)` -/
  SetFieldTypes : E.Script → List String → E.Script
  /-- Source: `func GetStackItemType(field string, a bool, b bool) string`, the
  three-argument classifier `input.go` calls. -/
  GetStackItemType : String → Bool → Bool → String

/-- Source: `type Input struct { previousOutputTxId [32]byte; previousOutputIndex uint32;
coinbase bool; spendType string; inputScript Script; redeemScript Script; segwit Segwit;
sequence uint32 }` -/
structure Input (Script : Type) where
  previousOutputTxId : List Byte
  previousOutputIndex : Nat
  coinbase : Bool
  spendType : String
  inputScript : Script
  redeemScript : Script
  segwit : Segwit Script
  sequence : Nat

namespace Input

/-- The assignment `xs[k] = v` to an element of a `[]string`: `none` is the out-of-range
panic. -/
def setString (xs : List String) (k : Int) (v : String) : Option (List String) :=
  if k < 0 ∨ k ≥ xs.length then none else some (xs.set k.toNat v)

/-- The loop `for f, field := range fields` of the last branch of `setFieldTypes`, run on
the fields still to visit with the index `f` of the first of them; the result is the
slice of field types it fills in for them.  A field whose tag `stackItemStr[f]` is
`'o'` (byte 111) keeps its own text, any other is classified; `none` is the panic of
`stackItemStr[f]` out of range. -/
def setFieldTypes.loop {E : ScriptEnv} (I : InputEnv E) (stackItemStr : List Byte) :
    List String → Int → Option (List String)
  | [], _ => some []
  | field :: rest, f => do
    let tag ← index stackItemStr f
    let fieldType := if tag == 111 then field else I.GetStackItemType field false false
    let fieldTypes ← setFieldTypes.loop I stackItemStr rest (f + 1)
    pure (fieldType :: fieldTypes)

/-- Source: `func (i *Input) setFieldTypes()`.  The result is the updated Input together
with the lines written by `fmt.Println`, in order; `none` is an out-of-range panic. -/
def setFieldTypes {E : ScriptEnv} (I : InputEnv E) (i : Input E.Script) :
    Option (Input E.Script × List String) :=
  -- P2SH-wrapped types
  if i.spendType == "P2SH-P2WPKH" || i.spendType == "P2SH-P2WSH" then
    -- input script
    let out : List String :=
      if E.IsNil i.redeemScript then [println [i.spendType ++ " input with no input script."]]
      else []
    let parsedFieldCount := I.GetParsedFieldCount i.inputScript
    let out :=
      if parsedFieldCount != 1 then
        out ++ [println [i.spendType ++ " input script has wrong field count. Found ",
          fmtD parsedFieldCount, ", expected 1."]]
      else out
    let inputScriptFieldTypes := ["Serialized Redeem Script"]
    let i := { i with inputScript := I.SetFieldTypes i.inputScript inputScriptFieldTypes }
    -- redeem script should always exist for these types
    let out :=
      if E.IsNil i.redeemScript then
        out ++ [println [i.spendType ++ " input with no redeem script."]]
      else out
    let parsedFieldCount := I.GetParsedFieldCount i.redeemScript
    let out :=
      if parsedFieldCount != 2 then
        out ++ [println [i.spendType ++ " redeem script has wrong field count. Found ",
          fmtD parsedFieldCount, ", expected 2."]]
      else out
    let redeemScriptFieldTypes : List String := List.replicate 2 ""
    let redeemScriptFieldTypes := redeemScriptFieldTypes.set 0 "OP_0"
    let redeemScriptFieldTypes :=
      if i.spendType == "P2SH-P2WPKH" then redeemScriptFieldTypes.set 1 "20-Byte Witness Program"
      else if i.spendType == "P2SH-P2WSH" then
        redeemScriptFieldTypes.set 1 "32-Byte Witness Program"
      else redeemScriptFieldTypes
    let i := { i with redeemScript := I.SetFieldTypes i.redeemScript redeemScriptFieldTypes }
    some (i, out)
  -- witness types
  else if i.spendType == "P2WPKH" || i.spendType == "P2WSH" ||
      i.spendType == "Taproot Key Path" || i.spendType == "Taproot Script Path" then
    let out : List String :=
      if !I.IsEmpty i.inputScript then [println [i.spendType ++ " input has non-empty input script."]]
      else []
    some (i, out)
  -- coinbase, legacy and non-standard types
  else do
    let out : List String :=
      if !i.segwit.IsEmpty then [println [i.spendType ++ " has non-empty segwit."]] else []
    -- input script
    let inputScriptFields := I.GetFields i.inputScript
    let inputScriptStackItemStr := I.GetRawFieldTypes i.inputScript
    let inputScriptFieldCount : Int := inputScriptFields.length
    let inputScriptFieldTypes ← setFieldTypes.loop I inputScriptStackItemStr inputScriptFields 0
    let inputScriptFieldTypes ←
      if !E.IsNil i.redeemScript then
        setString inputScriptFieldTypes (inputScriptFieldCount - 1) "Serialized Redeem Script"
      else some inputScriptFieldTypes
    let i := { i with inputScript := I.SetFieldTypes i.inputScript inputScriptFieldTypes }
    -- redeem script
    let redeemScriptFields := I.GetFields i.redeemScript
    let redeemScriptStackItemStr := I.GetRawFieldTypes i.redeemScript
    let redeemScriptFieldTypes ←
      setFieldTypes.loop I redeemScriptStackItemStr redeemScriptFields 0
    let i := { i with redeemScript := I.SetFieldTypes i.redeemScript redeemScriptFieldTypes }
    some (i, out)

end Input

/-- Source: `func NewInput(coinbase bool, previousOutputTxId [32]byte,
previousOutputIndex uint32, spendType string, inputScript Script, redeemScript Script,
segwit Segwit, sequence uint32) Input`: the struct is filled in and `setFieldTypes` is
run on it. -/
def NewInput {E : ScriptEnv} (I : InputEnv E) (coinbase : Bool)
    (previousOutputTxId : List Byte) (previousOutputIndex : Nat) (spendType : String)
    (inputScript redeemScript : E.Script) (segwit : Segwit E.Script) (sequence : Nat) :
    Option (Input E.Script × List String) :=
  let i : Input E.Script :=
    { coinbase := coinbase, previousOutputTxId := previousOutputTxId,
      previousOutputIndex := previousOutputIndex, spendType := spendType,
      inputScript := inputScript, redeemScript := redeemScript, segwit := segwit,
      sequence := sequence }
  Input.setFieldTypes I i

/-! ## The REST dispatcher (`src/rest/rest-v2.go`) -/

namespace Rest

/-- Source: `type PreviousOutputRequest struct { InputTxId string; InputIndex uint32;
PrevOutTxId string; PrevOutIndex uint32 }` -/
structure PreviousOutputRequest where
  InputTxId : String
  InputIndex : Nat
  PrevOutTxId : String
  PrevOutIndex : Nat

/-- Parameters of the embedding of `HandleRequest`: the request body and what decoding
it gives (`json.NewDecoder(requestBody).Decode`, whose error is kept as `err.Error()`),
the part of each case that follows a successful decode (it queries the node through
`btc.GetNodeClient()`, marshals the answer and may write lines with `fmt.Println`;
`none` is a panic, as a failed type assertion gives), `api.GetCurrentBlockHeight()`,
and `json.Marshal(RestError{Error: m})` for the type `RestError`, which is declared
outside the sources. -/
structure RestEnv where
  /-- The request body, an `io.ReadCloser`. -/
  Body : Type
  /-- The decoded `map[string]interface{}` of the cases `block` and `tx`. -/
  Params : Type
  /-- The decoded `map[string][]uint32` of the case `output_types`. -/
  PreviousOutputs : Type
  /-- Decoding of the body into `requestParams`. -/
  decodeParams : Body → Except String Params
  /-- Decoding of the body into `requestedPreviousOutputs`. -/
  decodePreviousOutputs : Body → Except String PreviousOutputs
  /-- Decoding of the body into `previousOutputJsonIn`. -/
  decodePreviousOutputRequest : Body → Except String PreviousOutputRequest
  /-- The case `block` from `api.GetBlockData(requestParams)` to `string(blockBytes)`. -/
  blockResponse : Params → Option (String × List String)
  /-- The case `tx` from `api.GetTxData(requestParams)` to `string(txBytes)`. -/
  txResponse : Params → Option (String × List String)
  /-- Source: `func (r *RestApiV2) GetCurrentBlockHeight() string` -/
  GetCurrentBlockHeight : Option (String × List String)
  /-- The case `output_types` from `api.GetPreviousOutputTypes` to
  `string(prevOutsBytes)`. -/
  outputTypesResponse : PreviousOutputs → Option (String × List String)
  /-- The case `previous_output` from `api.GetPreviousOutputResponseData` to
  `string(jsonBytes)`. -/
  previousOutputResponse : PreviousOutputRequest → Option (String × List String)
  /-- The string `json.Marshal(RestError{Error: m})` gives. -/
  marshalRestError : String → String

/-- The local variables of `HandleRequest` at the end of its `switch`, with what it has
done to the world so far: the lines written to standard output, whether the request
body has been read and whether the node has been queried. -/
structure State where
  errorMessage : String
  responseJson : String
  stdout : List String
  bodyRead : Bool
  nodeQueried : Bool
deriving DecidableEq, Repr

/-- What a call of `HandleRequest` returns and what it has done to the world. -/
structure Outcome where
  response : String
  stdout : List String
  bodyRead : Bool
  nodeQueried : Bool
deriving DecidableEq, Repr

/-- A case of the `switch` that left through `errorMessage = m; break` before the body
was decoded. -/
def HandleRequest.refuse (m : String) : Option State :=
  some { errorMessage := m, responseJson := "", stdout := [], bodyRead := false,
         nodeQueried := false }

/-- The statements of a POST case after its method check: decode the body (on an error
`errorMessage = err.Error()` and `break`), then build the response. -/
def HandleRequest.decodeThen {α : Type} (decoded : Except String α)
    (respond : α → Option (String × List String)) : Option State :=
  match decoded with
  | Except.error err =>
    some { errorMessage := err, responseJson := "", stdout := [], bodyRead := true,
           nodeQueried := false }
  | Except.ok requestParams => do
    let (responseJson, out) ← respond requestParams
    pure { errorMessage := "", responseJson := responseJson, stdout := out,
           bodyRead := true, nodeQueried := true }

/-- The `switch functionName` of `HandleRequest`. -/
def HandleRequest.switch (api : RestEnv) (httpMethod functionName : String)
    (requestBody : api.Body) : Option State :=
  if functionName == "block" then
    if httpMethod != "POST" then
      HandleRequest.refuse (functionName ++ " must be sent as a POST request.")
    else HandleRequest.decodeThen (api.decodeParams requestBody) api.blockResponse
  else if functionName == "tx" then
    if httpMethod != "POST" then
      HandleRequest.refuse (functionName ++ " must be sent as a POST request. " ++ httpMethod)
    else HandleRequest.decodeThen (api.decodeParams requestBody) api.txResponse
  else if functionName == "current_block_height" then
    if httpMethod != "GET" then
      HandleRequest.refuse (functionName ++ " must be sent as a GET request.")
    else do
      let (responseJson, out) ← api.GetCurrentBlockHeight
      pure { errorMessage := "", responseJson := responseJson, stdout := out,
             bodyRead := false, nodeQueried := true }
  else if functionName == "output_types" then
    if httpMethod != "POST" then
      HandleRequest.refuse (functionName ++ " must be sent as a POST request.")
    else
      HandleRequest.decodeThen (api.decodePreviousOutputs requestBody) api.outputTypesResponse
  else if functionName == "previous_output" then
    if httpMethod != "POST" then
      HandleRequest.refuse (functionName ++ " must be sent as a POST request.")
    else
      HandleRequest.decodeThen (api.decodePreviousOutputRequest requestBody)
        api.previousOutputResponse
  else
    HandleRequest.refuse ("Unknown REST v1 function: " ++ functionName)

/-- Source: `func (api *RestApiV2) HandleRequest(httpMethod string, functionName string,
getParams []string, requestBody io.ReadCloser) string`.  Go `len(errorMessage) > 0`
holds exactly when the string is not empty. -/
def HandleRequest (api : RestEnv) (httpMethod functionName : String)
    (getParams : List String) (requestBody : api.Body) : Option Outcome := do
  let st ← HandleRequest.switch api httpMethod functionName requestBody
  if st.errorMessage.length > 0 then
    pure { response := api.marshalRestError st.errorMessage,
           stdout := st.stdout ++ [println [st.errorMessage]],
           bodyRead := st.bodyRead, nodeQueried := st.nodeQueried }
  else
    pure { response := st.responseJson, stdout := st.stdout,
           bodyRead := st.bodyRead, nodeQueried := st.nodeQueried }

end Rest

/-! ## Settings validation (`src/app/settings.go`) -/

namespace App

/-- Source: `type settingsManager struct`, with its members in their order; the two
`uint16` ports are natural numbers. -/
structure settingsManager where
  alreadyParsed : Bool
  versionTag : String
  versionRequest : Bool
  configFile : String
  bitcoinCoreAddr : String
  bitcoinCorePort : Nat
  bitcoinCoreUsername : String
  bitcoinCorePassword : String
  nodeVersionStr : String
  baseUrl : String
  addr : String
  port : Nat
  noWeb : Bool
  caching : Bool
deriving DecidableEq, Repr

/-- Source: `func (s *settingsManager) ExitOnError()`.  A `panic(msg)` is
`Except.error msg`, a normal return is `Except.ok ()`; Go `len(s.addr) == 0` holds
exactly when the string is empty. -/
def settingsManager.ExitOnError (s : settingsManager) : Except String Unit :=
  -- verify the web settings
  if s.noWeb && (s.addr.length == 0 || s.port == 0) then
    Except.error "Web parameters are not valid."
  else
    Except.ok ()

/-- Source: `func (s *settingsManager) IsWebOn() bool` -/
def settingsManager.IsWebOn (s : settingsManager) : Bool := !s.noWeb

/-- Source: `func (s *settingsManager) GetAddr() string` -/
def settingsManager.GetAddr (s : settingsManager) : String := s.addr

/-- Source: `func (s *settingsManager) GetPort() uint16` -/
def settingsManager.GetPort (s : settingsManager) : Nat := s.port

/-- Source: `func getDefaultSettings() settingsManager`; the members that are not named
hold their zero values. -/
def getDefaultSettings : settingsManager :=
  { alreadyParsed := false, versionTag := "", versionRequest := false, configFile := "",
    bitcoinCoreAddr := "127.0.0.1", bitcoinCorePort := 8332, bitcoinCoreUsername := "",
    bitcoinCorePassword := "", nodeVersionStr := "", baseUrl := "", addr := "127.0.0.1",
    port := 8080, noWeb := false, caching := false }

end App

/-! ## The relabelling of a tap script, as the specification words it -/

namespace Spec

/-- The classification C18 describes for a data push of a tap script: the
tapscript-context classification, except that in an ordinal tap script a push that
classifies as `"Schnorr Signature"` gets its classification without the tapscript
flag. -/
def tapFieldType (E : ScriptEnv) (ordinal : Bool) (bytes : List Byte) : String :=
  if ordinal && E.GetStackItemType bytes true == "Schnorr Signature" then
    E.GetStackItemType bytes false
  else E.GetStackItemType bytes true

/-- The relabelling C18 describes: going through the fields of the tap script `ts` with
their indices, every data push is given `tapFieldType` for the ordinal flag of `ts`
itself, and opcode fields are left alone. -/
def relabelTapScript (E : ScriptEnv) (ts : E.Script) : E.Script :=
  (E.GetFields ts).enum.foldl
    (fun sc p =>
      if E.IsOpcode p.2 then sc
      else E.SetFieldType sc (p.1 : Int) (tapFieldType E (E.IsOrdinal ts) (E.AsBytes p.2)))
    ts

end Spec

/-! ## A concrete script environment

The parameters of `ScriptEnv` filled in from the specification, so that every
definition above can be evaluated on concrete witness stacks. -/

namespace SpecModel

/-- Modelled from the spec: a ScriptField is an opcode (single byte) or a push of
bytes. -/
inductive ScriptField where
  | Opcode (byte : Byte)
  | Push (bytes : List Byte)
deriving DecidableEq, Repr

/-- Modelled from the spec: a parsed Script, the ordered fields, the semantic type
string of each field (assigned after the parse), the original bytes and the
parse-error flag. -/
structure ParsedScript where
  fields : List ScriptField
  fieldTypes : List String
  rawBytes : List Byte
  parseError : Bool
deriving DecidableEq, Repr

/-- Modelled from the spec: a push of `n` bytes; fewer than `n` bytes left is a parse
error that stops the parse, otherwise the push is emitted and `k` parses the rest. -/
def push (n : Nat) (rest : List Byte)
    (k : List Byte → List ScriptField × Bool) : List ScriptField × Bool :=
  if rest.length < n then ([], true)
  else
    let r := k (rest.drop n)
    (ScriptField.Push (rest.take n) :: r.1, r.2)

/-- Modelled from the spec: the ScriptParser loop (spec 4.3).  `0x00` is the opcode
OP_0, `0x01..0x4B` push that many bytes, `0x4C`/`0x4D`/`0x4E` read a 1/2/4-byte
little-endian length and push that many bytes, any other byte is an opcode.  The first
argument bounds the number of fields; every field consumes at least one byte, so the
length of the input is enough. -/
def parseFields : Nat → List Byte → List ScriptField × Bool
  | 0, _ => ([], false)
  | _ + 1, [] => ([], false)
  | fuel + 1, b :: rest =>
    if b.val = 0 then
      let r := parseFields fuel rest
      (ScriptField.Opcode b :: r.1, r.2)
    else if b.val ≤ 0x4B then
      push b.val rest (parseFields fuel)
    else if b.val = 0x4C then
      match rest with
      | l0 :: rest1 => push l0.val rest1 (parseFields fuel)
      | _ => ([], true)
    else if b.val = 0x4D then
      match rest with
      | l0 :: l1 :: rest1 => push (l0.val + 256 * l1.val) rest1 (parseFields fuel)
      | _ => ([], true)
    else if b.val = 0x4E then
      match rest with
      | l0 :: l1 :: l2 :: l3 :: rest1 =>
        push (l0.val + 256 * l1.val + 65536 * l2.val + 16777216 * l3.val) rest1
          (parseFields fuel)
      | _ => ([], true)
    else
      let r := parseFields fuel rest
      (ScriptField.Opcode b :: r.1, r.2)

/-- Modelled from the spec: the ScriptParser, raw bytes to Script. -/
def parse (rawBytes : List Byte) : ParsedScript :=
  let r := parseFields rawBytes.length rawBytes
  { fields := r.1, fieldTypes := List.replicate r.1.length "", rawBytes := rawBytes,
    parseError := r.2 }

/-- Modelled from the spec: the SIGHASH bytes `0x01, 0x02, 0x03, 0x81, 0x82, 0x83`. -/
def isSighash (b : Byte) : Bool :=
  b.val = 0x01 || b.val = 0x02 || b.val = 0x03 || b.val = 0x81 || b.val = 0x82 || b.val = 0x83

/-- Modelled from the spec: an ECDSA signature is the DER envelope
`0x30 <len> 0x02 <rlen> R 0x02 <slen> S <sighash>` with the inner lengths consistent
with the outer one and a SIGHASH byte at the end. -/
def isValidECSignature (b : List Byte) : Bool :=
  match b with
  | t :: len :: ti :: rlen :: rest =>
    match rest.drop rlen.val with
    | ti2 :: slen :: rest2 =>
      t.val = 0x30 && ti.val = 0x02 && ti2.val = 0x02 &&
      decide (rlen.val ≤ rest.length) &&
      decide (rest2.length = slen.val + 1) &&
      decide (len.val = 4 + rlen.val + slen.val) &&
      (match rest2.getLast? with
       | some h => isSighash h
       | none => false)
    | _ => false
  | _ => false

/-- Modelled from the spec: a public key is 33 bytes starting `0x02` or `0x03`
(compressed) or 65 bytes starting `0x04` (uncompressed). -/
def isValidECPublicKey (b : List Byte) : Bool :=
  match b with
  | p :: _ =>
    (decide (b.length = 33) && (p.val = 0x02 || p.val = 0x03)) ||
    (decide (b.length = 65) && p.val = 0x04)
  | [] => false

/-- Modelled from the spec: a Schnorr signature is 64 bytes, or 65 bytes with the
trailing byte a valid SIGHASH. -/
def isValidSchnorrSignature (b : List Byte) : Bool :=
  decide (b.length = 64) ||
  (decide (b.length = 65) &&
    (match b.getLast? with
     | some h => isSighash h
     | none => false))

/-- Modelled from the spec: the lower-case hexadecimal digit of a value below 16. -/
def hexDigit (d : Nat) : Char :=
  match d with
  | 0 => '0' | 1 => '1' | 2 => '2' | 3 => '3' | 4 => '4' | 5 => '5' | 6 => '6' | 7 => '7'
  | 8 => '8' | 9 => '9' | 10 => 'a' | 11 => 'b' | 12 => 'c' | 13 => 'd' | 14 => 'e'
  | _ => 'f'

/-- Modelled from the spec: the rendering of bytes as lower-case hex, two digits per
byte. -/
def toHex (bytes : List Byte) : String :=
  String.mk (bytes.flatMap (fun b => [hexDigit (b.val / 16), hexDigit (b.val % 16)]))

/-- Modelled from the spec: the value of a hexadecimal digit (0 for any other
character). -/
def hexValue (c : Char) : Nat :=
  if '0' ≤ c ∧ c ≤ '9' then c.toNat - '0'.toNat
  else if 'a' ≤ c ∧ c ≤ 'f' then c.toNat - 'a'.toNat + 10
  else if 'A' ≤ c ∧ c ≤ 'F' then c.toNat - 'A'.toNat + 10
  else 0

/-- Modelled from the spec: the bytes a string of hex digits stands for, two digits
per byte. -/
def fromHexChars : List Char → List Byte
  | hi :: lo :: rest => Fin.ofNat (hexValue hi * 16 + hexValue lo) :: fromHexChars rest
  | _ => []

/-- Modelled from the spec: the opcode-to-mnemonic table (spec 4.3), with the opcodes
the specification names; any other opcode renders as `OP_UNKNOWN(0xXX)`. -/
def mnemonic (b : Byte) : String :=
  if b.val = 0x00 then "OP_0"
  else if 0x51 ≤ b.val ∧ b.val ≤ 0x60 then "OP_" ++ toString (b.val - 0x50)
  else if b.val = 0x63 then "OP_IF"
  else if b.val = 0x68 then "OP_ENDIF"
  else if b.val = 0x6a then "OP_RETURN"
  else if b.val = 0x75 then "OP_DROP"
  else if b.val = 0x76 then "OP_DUP"
  else if b.val = 0x87 then "OP_EQUAL"
  else if b.val = 0x88 then "OP_EQUALVERIFY"
  else if b.val = 0xa9 then "OP_HASH160"
  else if b.val = 0xac then "OP_CHECKSIG"
  else if b.val = 0xae then "OP_CHECKMULTISIG"
  else if b.val = 0xaf then "OP_CHECKMULTISIGVERIFY"
  else "OP_UNKNOWN(0x" ++
    String.mk [(hexDigit (b.val / 16)).toUpper, (hexDigit (b.val % 16)).toUpper] ++ ")"

/-- Modelled from the spec: the text of a script field, the mnemonic of an opcode and
the lower-case hex of a push. -/
def fieldText : ScriptField → String
  | ScriptField.Opcode b => mnemonic b
  | ScriptField.Push bytes => toHex bytes

/-- Modelled from the spec: the bytes of a script field. -/
def fieldBytes : ScriptField → List Byte
  | ScriptField.Opcode b => [b]
  | ScriptField.Push bytes => bytes

/-- Modelled from the spec: whether a script field is an opcode. -/
def fieldIsOpcode : ScriptField → Bool
  | ScriptField.Opcode _ => true
  | ScriptField.Push _ => false

/-- Modelled from the spec: the raw field type tag, `'o'` (111) for an opcode and `'d'`
(100) for a data push. -/
def fieldTag : ScriptField → Byte
  | ScriptField.Opcode _ => 111
  | ScriptField.Push _ => 100

/-- Modelled from the spec: the StackItemClassifier `classify(bytes, in_witness,
inside_tapscript)` with its rules in their order of precedence (spec 4.2). -/
def classify (bytes : List Byte) (inWitness insideTapscript : Bool) : String :=
  if isValidECSignature bytes then "Signature"
  else if inWitness && !insideTapscript && isValidSchnorrSignature bytes then
    "Schnorr Signature"
  else if isValidECPublicKey bytes then "Public Key"
  else if inWitness && decide (bytes.length = 32) then "Schnorr Public Key"
  else toString bytes.length ++ "-Byte Data"

/-- Modelled from the spec: the two-argument classifier of `segwit.go`; with the
tapscript flag a 64- or 65-byte push classifies as `Schnorr Signature` and a 32-byte
push as `Schnorr Public Key` (spec 4.5), without it neither does. -/
def getStackItemType (bytes : List Byte) (tapscript : Bool) : String :=
  if isValidECSignature bytes then "Signature"
  else if tapscript && isValidSchnorrSignature bytes then "Schnorr Signature"
  else if isValidECPublicKey bytes then "Public Key"
  else if tapscript && decide (bytes.length = 32) then "Schnorr Public Key"
  else toString bytes.length ++ "-Byte Data"

/-- Modelled from the spec: the ordinal inscription envelope (spec 4.4),
`OP_FALSE OP_IF <push "ord"> ... OP_ENDIF`. -/
def isOrdinal (p : ParsedScript) : Bool :=
  match p.fields with
  | ScriptField.Opcode b0 :: ScriptField.Opcode b1 :: ScriptField.Push tag :: rest =>
    b0.val = 0x00 && b1.val = 0x63 && tag = [0x6f, 0x72, 0x64] &&
      (match rest.getLast? with
       | some (ScriptField.Opcode e) => e.val = 0x68
       | _ => false)
  | _ => false

/-- Modelled from the spec: the script slots of a Segwit are `Option<Script>`, so a
Script value is either absent (the nil script, which is what `Script{}` is) or a
parsed script; `NewScript` is the ScriptParser and `HasParseError` reads the
parse-error flag; the field accessors read the parsed fields and `SetFieldType`
assigns the semantic type string of one field. -/
def env : ScriptEnv where
  Script := Option ParsedScript
  zero := none
  NewScript := fun rawBytes => some (parse rawBytes)
  IsNil := fun s => s.isNone
  HasParseError := fun s =>
    match s with
    | some p => p.parseError
    | none => false
  IsValidECSignature := isValidECSignature
  IsValidECPublicKey := isValidECPublicKey
  IsValidSchnorrSignature := isValidSchnorrSignature
  Field := ScriptField
  GetFields := fun s =>
    match s with
    | some p => p.fields
    | none => []
  IsOpcode := fieldIsOpcode
  AsHex := fieldText
  AsBytes := fieldBytes
  SetFieldType := fun s f fieldType =>
    match s with
    | some p => some { p with fieldTypes := p.fieldTypes.set f.toNat fieldType }
    | none => none
  IsOrdinal := fun s =>
    match s with
    | some p => isOrdinal p
    | none => false
  GetStackItemType := getStackItemType

/-- Modelled from the spec: the `Script` methods `input.go` calls, on the same parsed
scripts: the field texts, one raw field type tag per field, `SetFieldTypes` replacing
the semantic type strings, and the classifier applied to the bytes a field text stands
for. -/
def inputEnv : InputEnv env where
  IsEmpty := fun s =>
    match s with
    | some p => p.fields.isEmpty
    | none => true
  GetParsedFieldCount := fun s =>
    match s with
    | some p => p.fields.length
    | none => 0
  GetFields := fun s =>
    match s with
    | some p => p.fields.map fieldText
    | none => []
  GetRawFieldTypes := fun s =>
    match s with
    | some p => p.fields.map fieldTag
    | none => []
  SetFieldTypes := fun s fieldTypes =>
    match s with
    | some p => some { p with fieldTypes := fieldTypes }
    | none => none
  GetStackItemType := fun field a b => classify (fromHexChars field.data) a b

/-- Modelled from the spec: the JSON text of a string, with the quote and the backslash
escaped. -/
def jsonString (m : String) : String :=
  "\"" ++ String.mk (m.data.flatMap (fun c =>
    if c = '"' then ['\\', '"'] else if c = '\\' then ['\\', '\\'] else [c])) ++ "\""

/-- Modelled from the spec: a REST environment whose node knows nothing.  A body is
its text; decoding fails on the empty body; every lookup answers `null`, as the spec
says of `NotFound`; errors are marshalled to the envelope with the key `Error`. -/
def restEnv : Rest.RestEnv where
  Body := String
  Params := String
  PreviousOutputs := String
  decodeParams := fun body => if body.isEmpty then Except.error "EOF" else Except.ok body
  decodePreviousOutputs := fun body =>
    if body.isEmpty then Except.error "EOF" else Except.ok body
  decodePreviousOutputRequest := fun body =>
    if body.isEmpty then Except.error "EOF" else Except.ok ⟨"", 0, "", 0⟩
  blockResponse := fun _ => some ("null", [])
  txResponse := fun _ => some ("null", [])
  GetCurrentBlockHeight := some ("", [])
  outputTypesResponse := fun _ => some ("null", [])
  previousOutputResponse := fun _ => some ("null", [])
  marshalRestError := fun m => "\x7b\"Error\":" ++ jsonString m ++ "\x7d"

instance : DecidableEq env.Script := inferInstanceAs (DecidableEq (Option ParsedScript))

/-- A 71-byte DER signature: `30 44 02 20 <32 bytes> 02 20 <32 bytes> 01`. -/
def sampleSig : List Byte :=
  [0x30, 0x44, 0x02, 0x20] ++ List.replicate 32 0x11 ++ [0x02, 0x20] ++
    List.replicate 32 0x22 ++ [0x01]

/-- A 33-byte compressed public key (the secp256k1 generator). -/
def samplePubKey : List Byte :=
  [0x02, 0x79, 0xbe, 0x66, 0x7e, 0xf9, 0xdc, 0xbb, 0xac, 0x55, 0xa0, 0x62, 0x95, 0xce,
   0x87, 0x0b, 0x07, 0x02, 0x9b, 0xfc, 0xdb, 0x2d, 0xce, 0x28, 0xd9, 0x59, 0xf2, 0x81,
   0x5b, 0x16, 0xf8, 0x17, 0x98]

/-- A 65-byte Schnorr signature: 64 bytes followed by the SIGHASH byte `0x01`. -/
def sampleSchnorr65 : List Byte := List.replicate 64 0x33 ++ [0x01]

/-- A 33-byte control block: `0xc0` followed by one 32-byte Merkle step. -/
def sampleControlBlock : List Byte := 0xc0 :: List.replicate 32 0x44

/-- The tap script `<32-byte key> OP_CHECKSIG`. -/
def sampleTapScript : List Byte := 0x20 :: List.replicate 32 0x55 ++ [0xac]

/-- An ordinal tap script: `OP_FALSE OP_IF <"ord"> <01> <"text/plain"> OP_0 <64 bytes>
OP_ENDIF`. -/
def sampleOrdinal : List Byte :=
  [0x00, 0x63, 0x03, 0x6f, 0x72, 0x64, 0x01, 0x01, 0x0a, 0x74, 0x65, 0x78, 0x74, 0x2f, 0x70,
   0x6c, 0x61, 0x69, 0x6e, 0x00, 0x40] ++ List.replicate 64 0x77 ++ [0x68]

end SpecModel


/-! ## Auxiliary facts -/

theorem index_natCast {α : Type} (xs : List α) (n : Nat) : index xs (n : Int) = xs[n]? := by
  simp [index]

theorem index_natCast_sub {α : Type} (xs : List α) (n k : Nat) (h : k ≤ n) :
    index xs ((n : Int) - (k : Int)) = xs[n - k]? := by
  have : ((n : Int) - (k : Int)) = ((n - k : Nat) : Int) := by omega
  rw [this, index_natCast]

theorem validLength_iff (L : Nat) :
    (decide ((L : Int) ≥ 33) && (Int.tmod ((L : Int) - 1) 32 == 0)) = true ↔
      33 ≤ L ∧ (L - 1) % 32 = 0 := by
  by_cases h : 33 ≤ L
  · have h1 : (0 : Int) ≤ (L : Int) - 1 := by omega
    rw [Int.tmod_eq_emod h1 (by norm_num)]
    simp only [Bool.and_eq_true, decide_eq_true_eq, beq_iff_eq]
    omega
  · simp only [Bool.and_eq_true, decide_eq_true_eq, beq_iff_eq]
    omega

theorem uint32_of_lt (n : Nat) (h : n < 4294967296) : uint32 (n : Int) = n := by
  unfold uint32
  omega

namespace Segwit

variable {Script : Type}

theorem HasAnnex_of_le_one (s : Segwit Script) (h : s.fields.length ≤ 1) :
    s.HasAnnex = some false := by
  unfold HasAnnex
  have : ¬ ((s.fields.length : Int) > 1) := by omega
  simp [this]

theorem HasAnnex_of_two_le (s : Segwit Script) (h : 2 ≤ s.fields.length) :
    s.HasAnnex =
      (s.fields[s.fields.length - 1]?).bind
        (fun last => (last.rawBytes[0]?).bind (fun b => some (b == 0x50))) := by
  unfold HasAnnex
  have h1 : ((s.fields.length : Int) > 1) := by omega
  have h2 := index_natCast_sub s.fields s.fields.length 1 (by omega)
  simp only [Nat.cast_one] at h2
  simp only [h1, if_true, h2, SegwitField.AsBytes]
  have h3 : ∀ l : List Byte, index l 0 = l[0]? := fun l => index_natCast l 0
  simp [h3]


theorem HasAnnex_isSome_iff (s : Segwit Script) :
    s.HasAnnex.isSome = true ↔
      s.fields.length ≤ 1 ∨ ∀ f, s.fields.getLast? = some f → f.rawBytes ≠ [] := by
  by_cases h : s.fields.length ≤ 1
  · simp [HasAnnex_of_le_one s h, h]
  · rw [HasAnnex_of_two_le s (by omega)]
    have hl : s.fields.getLast? = s.fields[s.fields.length - 1]? := List.getLast?_eq_getElem? _
    rw [hl]
    have hlt : s.fields.length - 1 < s.fields.length := by omega
    rw [List.getElem?_eq_getElem hlt]
    simp only [h, false_or, Option.some_bind, Option.some.injEq, forall_eq']
    cases hb : (s.fields[s.fields.length - 1]).rawBytes with
    | nil => simp
    | cons b bs => simp

/-- The control-block test as a function of the annex flag. -/
theorem GetControlBlockIndex_eq (s : Segwit Script) (a : Bool) (hdef : s.HasAnnex = some a) :
    s.GetControlBlockIndex =
      if s.fields.length < 2 + (if a then 1 else 0) then some INVALID_CB_INDEX
      else
        (s.fields[s.fields.length - 1 - (if a then 1 else 0)]?).bind (fun cb =>
          if 33 ≤ cb.rawBytes.length ∧ (cb.rawBytes.length - 1) % 32 = 0 then
            some (uint32 ((s.fields.length - 1 - (if a then 1 else 0) : Nat) : Int))
          else some INVALID_CB_INDEX) := by
  unfold GetControlBlockIndex
  rw [hdef]
  cases a
  · simp only [Option.bind_eq_bind, Option.some_bind, Bool.false_eq_true, if_false]
    by_cases h : s.fields.length < 2
    · have : ((s.fields.length : Int) < 2) := by omega
      simp [h, this]
    · have h' : ¬ ((s.fields.length : Int) < 2) := by omega
      have hi := index_natCast_sub s.fields s.fields.length 1 (by omega)
      simp only [Nat.cast_one] at hi
      simp only [h, h', if_false, hi, add_zero, Nat.sub_zero]
      cases hcb : s.fields[s.fields.length - 1]? with
      | none => simp
      | some cb =>
        simp only [Option.some_bind, SegwitField.AsBytes]
        have hv := validLength_iff cb.rawBytes.length
        have hc : ((s.fields.length : Int) - 1) = ((s.fields.length - 1 : Nat) : Int) := by omega
        by_cases hok : 33 ≤ cb.rawBytes.length ∧ (cb.rawBytes.length - 1) % 32 = 0
        · simp only [hv.2 hok, hok, Bool.not_true, Bool.false_eq_true, if_false, and_self,
            if_true, hc]
          rfl
        · have : ¬ ((decide ((cb.rawBytes.length : Int) ≥ 33) &&
              (Int.tmod ((cb.rawBytes.length : Int) - 1) 32 == 0)) = true) :=
            fun hh => hok (hv.1 hh)
          simp only [Bool.not_eq_true] at this
          simp only [this, hok, Bool.not_false, if_true, if_false]
          rfl
  · simp only [Option.bind_eq_bind, Option.some_bind, if_true]
    by_cases h : s.fields.length < 2 + 1
    · have : ((s.fields.length : Int) < 2 + 1) := by omega
      simp [h, this]
    · have h' : ¬ ((s.fields.length : Int) < 2 + 1) := by omega
      have hi := index_natCast_sub s.fields s.fields.length 2 (by omega)
      have hi' : index s.fields ((s.fields.length : Int) - 1 - 1) = s.fields[s.fields.length - 2]? := by
        rw [← hi]; congr 1; push_cast; ring
      have e2 : s.fields.length - 1 - 1 = s.fields.length - 2 := by omega
      simp only [h, h', if_false, hi', e2]
      cases hcb : s.fields[s.fields.length - 2]? with
      | none => simp
      | some cb =>
        simp only [Option.some_bind, SegwitField.AsBytes]
        have hv := validLength_iff cb.rawBytes.length
        have hc : ((s.fields.length : Int) - 1 - 1) = ((s.fields.length - 2 : Nat) : Int) := by omega
        by_cases hok : 33 ≤ cb.rawBytes.length ∧ (cb.rawBytes.length - 1) % 32 = 0
        · simp only [hv.2 hok, hok, Bool.not_true, Bool.false_eq_true, if_false, and_self,
            if_true, hc]
          rfl
        · have : ¬ ((decide ((cb.rawBytes.length : Int) ≥ 33) &&
              (Int.tmod ((cb.rawBytes.length : Int) - 1) 32 == 0)) = true) :=
            fun hh => hok (hv.1 hh)
          simp only [Bool.not_eq_true] at this
          simp only [this, hok, Bool.not_false, if_true, if_false]
          rfl


/-- C1: on a witness stack of `n < 2^32` fields on which `HasAnnex` returns `a`
(with `k = 1` if `a`, else `0`), `GetControlBlockIndex` returns `n-1-k` exactly when
`n ≥ 2+k` and the length `L` of field `n-1-k` has `L ≥ 33` and `(L-1) mod 32 = 0`;
in every other case it returns `INVALID_CB_INDEX`. -/
theorem GetControlBlockIndex_control_block_test (s : Segwit Script) (a : Bool)
    (hdef : s.HasAnnex = some a) (hlen : s.fields.length < 4294967296) :
    (s.GetControlBlockIndex = some (s.fields.length - 1 - (if a then 1 else 0)) ↔
      (2 + (if a then 1 else 0) ≤ s.fields.length ∧
        ∃ cb, s.fields[s.fields.length - 1 - (if a then 1 else 0)]? = some cb ∧
          33 ≤ cb.rawBytes.length ∧ (cb.rawBytes.length - 1) % 32 = 0)) ∧
    (¬ (2 + (if a then 1 else 0) ≤ s.fields.length ∧
        ∃ cb, s.fields[s.fields.length - 1 - (if a then 1 else 0)]? = some cb ∧
          33 ≤ cb.rawBytes.length ∧ (cb.rawBytes.length - 1) % 32 = 0) →
      s.GetControlBlockIndex = some INVALID_CB_INDEX) := by
  rw [GetControlBlockIndex_eq s a hdef]
  generalize hk : (if a then 1 else 0 : Nat) = k
  have hk1 : k ≤ 1 := by subst hk; split <;> omega
  have hne : s.fields.length - 1 - k ≠ INVALID_CB_INDEX := by
    unfold INVALID_CB_INDEX; omega
  by_cases h : s.fields.length < 2 + k
  · simp only [h, if_true, Option.some.injEq]
    refine ⟨⟨fun e => absurd e.symm hne, fun c => absurd c.1 (by omega)⟩, fun _ => trivial⟩
  · simp only [h, if_false]
    have hlt : s.fields.length - 1 - k < s.fields.length := by omega
    rw [List.getElem?_eq_getElem hlt]
    simp only [Option.some_bind, Option.some.injEq, exists_eq_left']
    rw [uint32_of_lt _ (by omega)]
    by_cases hok : 33 ≤ (s.fields[s.fields.length - 1 - k]).rawBytes.length ∧
        ((s.fields[s.fields.length - 1 - k]).rawBytes.length - 1) % 32 = 0
    · simp only [hok, and_self, if_true, true_iff, and_true, not_true_eq_false]
      exact ⟨by omega, fun c => absurd (show 2 + k ≤ s.fields.length by omega) c⟩
    · simp only [hok, if_false, Option.some.injEq, and_false, iff_false, not_false_eq_true,
        forall_true_left, and_true]
      exact fun e => hne e.symm

/-- The statement of C1 at the three-field stack `[01, tap script, control block]`:
the control block is found at index 2. -/
theorem GetControlBlockIndex_control_block_test_witness :
    (NewSegwit SpecModel.env [[1], SpecModel.sampleTapScript, SpecModel.sampleControlBlock]).HasAnnex
        = some false ∧
    (NewSegwit SpecModel.env [[1], SpecModel.sampleTapScript,
        SpecModel.sampleControlBlock]).GetControlBlockIndex = some 2 :=
  ⟨by decide,
   ((GetControlBlockIndex_control_block_test
      (NewSegwit SpecModel.env [[1], SpecModel.sampleTapScript, SpecModel.sampleControlBlock])
      false (by decide) (by decide)).1).2
      ⟨by decide, ⟨SpecModel.sampleControlBlock, ""⟩, by decide, by decide, by decide⟩⟩

/-- C7: on a witness stack whose last field is non-empty, `HasAnnex` returns true
exactly when the field count is at least 2 and the first byte of the last field is
`0x50`; on a stack with a single field it returns false whatever that field is. -/
theorem HasAnnex_iff_count_and_first_byte (s : Segwit Script) :
    ((∀ f, s.fields.getLast? = some f → f.rawBytes ≠ []) →
      ∃ a, s.HasAnnex = some a ∧
        (a = true ↔ 2 ≤ s.fields.length ∧
          ∃ f, s.fields.getLast? = some f ∧ f.rawBytes.head? = some 0x50)) ∧
    (s.fields.length = 1 → s.HasAnnex = some false) := by
  refine ⟨fun hlast => ?_, fun h1 => HasAnnex_of_le_one s (by omega)⟩
  by_cases h : s.fields.length ≤ 1
  · exact ⟨false, HasAnnex_of_le_one s h, by simp; omega⟩
  · rw [HasAnnex_of_two_le s (by omega)]
    have hl : s.fields.getLast? = s.fields[s.fields.length - 1]? := List.getLast?_eq_getElem? _
    rw [hl] at hlast ⊢
    have hlt : s.fields.length - 1 < s.fields.length := by omega
    rw [List.getElem?_eq_getElem hlt] at hlast ⊢
    have hne := hlast _ rfl
    cases hb : (s.fields[s.fields.length - 1]).rawBytes with
    | nil => exact absurd hb hne
    | cons b bs =>
      refine ⟨b == 0x50, by simp [hb], ?_⟩
      simp only [beq_iff_eq, Option.some.injEq, exists_eq_left', hb, List.head?_cons]
      constructor
      · intro e; exact ⟨by omega, e⟩
      · intro e; exact e.2

/-- The statement of C7 at the two-field stack `[Schnorr signature, 50 01]` and at the
one-field stack `[50]`. -/
theorem HasAnnex_iff_count_and_first_byte_witness :
    (NewSegwit SpecModel.env [SpecModel.sampleSchnorr65, [0x50, 0x01]]).HasAnnex = some true ∧
    (NewSegwit SpecModel.env [[0x50]]).HasAnnex = some false :=
  ⟨by
    obtain ⟨a, ha, hiff⟩ := (HasAnnex_iff_count_and_first_byte
      (NewSegwit SpecModel.env [SpecModel.sampleSchnorr65, [0x50, 0x01]])).1 (by decide)
    have : a = true := hiff.2 ⟨by decide, ⟨[0x50, 0x01], ""⟩, by decide, by decide⟩
    rw [ha, this],
   (HasAnnex_iff_count_and_first_byte (NewSegwit SpecModel.env [[0x50]])).2 (by decide)⟩


theorem uint32Sub_one (c : Nat) (h1 : 1 ≤ c) (h2 : c < 4294967296) : uint32Sub c 1 = c - 1 := by
  unfold uint32Sub
  omega

/-- Appending an annex to a stack without one: the annex is detected on every
non-empty stack. -/
theorem HasAnnex_append_annex (s : Segwit Script) (x : SegwitField)
    (hx : x.rawBytes.head? = some 0x50) :
    HasAnnex { s with fields := s.fields ++ [x] } = some (decide (1 ≤ s.fields.length)) := by
  by_cases h : 1 ≤ s.fields.length
  · rw [HasAnnex_of_two_le _ (by simp only [List.length_append, List.length_singleton]; omega)]
    simp only [List.length_append, List.length_singleton, Nat.add_sub_cancel]
    rw [List.getElem?_append_right (le_refl _)]
    simp only [Nat.sub_self, List.getElem?_cons_zero, Option.some_bind, h, decide_True]
    cases hb : x.rawBytes with
    | nil => simp [hb] at hx
    | cons b bs =>
      simp only [hb, List.head?_cons, Option.some.injEq] at hx
      simp [hx]
  · rw [HasAnnex_of_le_one _ (by simp only [List.length_append, List.length_singleton]; omega)]
    simp [h]

/-- C8: appending an annex (a non-empty field starting `0x50`) to a witness stack `w`
with `HasAnnex(w) = false` leaves `GetControlBlockIndex` and `parseTapScript`
unchanged; in the extended stack of `m < 2^32` fields a control block that is found
sits at index `m-2`. -/
theorem GetControlBlockIndex_append_annex (E : ScriptEnv) (w : Segwit E.Script)
    (x : SegwitField) (hw : w.HasAnnex = some false) (hx : x.rawBytes.head? = some 0x50) :
    GetControlBlockIndex { w with fields := w.fields ++ [x] } = w.GetControlBlockIndex ∧
    parseTapScript E { w with fields := w.fields ++ [x] } = parseTapScript E w ∧
    (w.fields.length + 1 < 4294967296 →
      ∀ c, GetControlBlockIndex { w with fields := w.fields ++ [x] } = some c →
        c ≠ INVALID_CB_INDEX → c + 2 = w.fields.length + 1) := by
  have hax := HasAnnex_append_annex w x hx
  have hcb : GetControlBlockIndex { w with fields := w.fields ++ [x] } =
      w.GetControlBlockIndex := by
    rw [GetControlBlockIndex_eq _ _ hax, GetControlBlockIndex_eq _ _ hw]
    by_cases h : 1 ≤ w.fields.length
    · simp only [h, decide_True, if_true, List.length_append, List.length_singleton,
        Bool.false_eq_true, if_false, add_zero, Nat.sub_zero]
      have e1 : w.fields.length + 1 - 1 - 1 = w.fields.length - 1 := by omega
      rw [e1]
      by_cases h2 : w.fields.length < 2
      · have : w.fields.length + 1 < 2 + 1 := by omega
        simp [h2, this]
      · have : ¬ (w.fields.length + 1 < 2 + 1) := by omega
        simp only [h2, this, if_false]
        rw [List.getElem?_append_left (by omega)]
    · have h0 : w.fields.length = 0 := by omega
      have hnil : w.fields = [] := List.length_eq_zero.mp h0
      simp [hnil]
  refine ⟨hcb, ?_, ?_⟩
  · unfold parseTapScript
    rw [hcb]
    cases hc : w.GetControlBlockIndex with
    | none => rfl
    | some c =>
      simp only [Option.bind_eq_bind, Option.some_bind]
      by_cases hinv : c = INVALID_CB_INDEX
      · simp [hinv]
      · have hbeq : (c == INVALID_CB_INDEX) = false := by simpa using hinv
        simp only [hbeq, Bool.false_eq_true, if_false]
        have hidx : index (w.fields ++ [x]) ((uint32Sub c 1 : Nat) : Int) =
            index w.fields ((uint32Sub c 1 : Nat) : Int) := by
          rw [index_natCast, index_natCast]
          apply List.getElem?_append_left
          -- the tap script index lies inside `w`
          rw [GetControlBlockIndex_eq _ _ hw] at hc
          simp only [Bool.false_eq_true, if_false, add_zero, Nat.sub_zero] at hc
          by_cases h2 : w.fields.length < 2
          · simp only [h2, if_true, Option.some.injEq] at hc
            exact absurd hc.symm hinv
          · simp only [h2, if_false] at hc
            rw [List.getElem?_eq_getElem (by omega)] at hc
            simp only [Option.some_bind] at hc
            split at hc
            · simp only [Option.some.injEq] at hc
              unfold uint32 at hc
              unfold uint32Sub
              unfold INVALID_CB_INDEX at hinv
              omega
            · simp only [Option.some.injEq] at hc
              exact absurd hc.symm hinv
        rw [hidx]
  · intro hm c hc hinv
    rw [hcb, GetControlBlockIndex_eq _ _ hw] at hc
    simp only [Bool.false_eq_true, if_false, add_zero, Nat.sub_zero] at hc
    by_cases h2 : w.fields.length < 2
    · simp only [h2, if_true, Option.some.injEq] at hc
      exact absurd hc.symm hinv
    · simp only [h2, if_false] at hc
      rw [List.getElem?_eq_getElem (by omega)] at hc
      simp only [Option.some_bind] at hc
      split at hc
      · simp only [Option.some.injEq] at hc
        rw [uint32_of_lt _ (by omega)] at hc
        omega
      · simp only [Option.some.injEq] at hc
        exact absurd hc.symm hinv


/-- The statement of C8 at `[01, tap script, control block]` extended by the annex
`50 01`. -/
theorem GetControlBlockIndex_append_annex_witness :
    (NewSegwit SpecModel.env [[1], SpecModel.sampleTapScript, SpecModel.sampleControlBlock]).HasAnnex
        = some false ∧
    GetControlBlockIndex
        { NewSegwit SpecModel.env [[1], SpecModel.sampleTapScript, SpecModel.sampleControlBlock] with
          fields :=
            (NewSegwit SpecModel.env [[1], SpecModel.sampleTapScript,
              SpecModel.sampleControlBlock]).fields ++ [⟨[0x50, 0x01], ""⟩] } =
      (NewSegwit SpecModel.env [[1], SpecModel.sampleTapScript,
        SpecModel.sampleControlBlock]).GetControlBlockIndex :=
  ⟨by decide,
   (GetControlBlockIndex_append_annex SpecModel.env
      (NewSegwit SpecModel.env [[1], SpecModel.sampleTapScript, SpecModel.sampleControlBlock])
      ⟨[0x50, 0x01], ""⟩ (by decide) (by decide)).1⟩

theorem GetControlBlockIndex_eq_none (s : Segwit Script) (h : s.HasAnnex = none) :
    s.GetControlBlockIndex = none := by
  unfold GetControlBlockIndex
  rw [h]
  rfl

/-- What a returned index other than `INVALID_CB_INDEX` says about the stack. -/
theorem GetControlBlockIndex_valid (s : Segwit Script) (c : Nat)
    (hc : s.GetControlBlockIndex = some c) (hinv : c ≠ INVALID_CB_INDEX) :
    ∃ a, s.HasAnnex = some a ∧ 2 + (if a then 1 else 0) ≤ s.fields.length ∧
      c = uint32 ((s.fields.length - 1 - (if a then 1 else 0) : Nat) : Int) ∧
      ∃ cb, s.fields[s.fields.length - 1 - (if a then 1 else 0)]? = some cb ∧
        33 ≤ cb.rawBytes.length ∧ (cb.rawBytes.length - 1) % 32 = 0 := by
  cases ha : s.HasAnnex with
  | none => rw [GetControlBlockIndex_eq_none s ha] at hc; exact absurd hc (by simp)
  | some a =>
    refine ⟨a, rfl, ?_⟩
    rw [GetControlBlockIndex_eq s a ha] at hc
    generalize (if a then 1 else 0 : Nat) = k at hc ⊢
    by_cases h : s.fields.length < 2 + k
    · simp only [h, if_true, Option.some.injEq] at hc
      exact absurd hc.symm hinv
    · simp only [h, if_false] at hc
      have hlt : s.fields.length - 1 - k < s.fields.length := by omega
      rw [List.getElem?_eq_getElem hlt] at hc ⊢
      simp only [Option.some_bind] at hc
      split at hc
      · rename_i hok
        simp only [Option.some.injEq] at hc
        exact ⟨by omega, hc.symm, _, rfl, hok.1, hok.2⟩
      · simp only [Option.some.injEq] at hc
        exact absurd hc.symm hinv

/-- C9: when the field in the control-block position has length `32k+1` with `k ≥ 1`,
`GetControlBlockIndex` accepts it and the leaf count computed by `SetTapScript`,
`(len(cb) - 1) / 32`, is `k`; when it has length 32, `GetControlBlockIndex` returns
`INVALID_CB_INDEX`. -/
theorem SetTapScript_cbLeafCount (s : Segwit Script) (a : Bool) (cb : SegwitField)
    (hdef : s.HasAnnex = some a) (hlen : s.fields.length < 4294967296)
    (hn : 2 + (if a then 1 else 0) ≤ s.fields.length)
    (hcb : s.fields[s.fields.length - 1 - (if a then 1 else 0)]? = some cb) :
    (∀ k : Nat, 1 ≤ k → cb.rawBytes.length = 32 * k + 1 →
      s.GetControlBlockIndex = some (s.fields.length - 1 - (if a then 1 else 0)) ∧
      SetTapScript.cbLeafCount s = some (k : Int)) ∧
    (cb.rawBytes.length = 32 → s.GetControlBlockIndex = some INVALID_CB_INDEX) := by
  have heq := GetControlBlockIndex_eq s a hdef
  generalize hk' : (if a then 1 else 0 : Nat) = k' at heq hn hcb ⊢
  have hk1 : k' ≤ 1 := by subst hk'; split <;> omega
  have hnlt : ¬ (s.fields.length < 2 + k') := by omega
  simp only [hnlt, if_false, hcb, Option.some_bind] at heq
  rw [uint32_of_lt _ (by omega)] at heq
  constructor
  · intro k hk hL
    have hok : 33 ≤ cb.rawBytes.length ∧ (cb.rawBytes.length - 1) % 32 = 0 := by omega
    simp only [hok, and_self, if_true] at heq
    refine ⟨heq, ?_⟩
    unfold SetTapScript.cbLeafCount
    rw [heq]
    have hne : (s.fields.length - 1 - k' != INVALID_CB_INDEX) = true := by
      simp only [bne_iff_ne, ne_eq]
      unfold INVALID_CB_INDEX
      omega
    simp only [Option.bind_eq_bind, Option.some_bind, hne, if_true, index_natCast, hcb,
      SegwitField.AsBytes]
    have h0 : (0 : Int) ≤ (cb.rawBytes.length : Int) - 1 := by omega
    rw [Int.tdiv_eq_ediv h0 (by norm_num)]
    show some _ = some _
    congr 1
    omega
  · intro hL
    have hok : ¬ (33 ≤ cb.rawBytes.length ∧ (cb.rawBytes.length - 1) % 32 = 0) := by omega
    simpa only [hok, if_false] using heq

/-- The statement of C9 at `[01, tap script, control block of 33 bytes]`: one leaf. -/
theorem SetTapScript_cbLeafCount_witness :
    (NewSegwit SpecModel.env [[1], SpecModel.sampleTapScript,
        SpecModel.sampleControlBlock]).GetControlBlockIndex = some 2 ∧
    SetTapScript.cbLeafCount
      (NewSegwit SpecModel.env [[1], SpecModel.sampleTapScript, SpecModel.sampleControlBlock])
      = some 1 :=
  (SetTapScript_cbLeafCount
    (NewSegwit SpecModel.env [[1], SpecModel.sampleTapScript, SpecModel.sampleControlBlock])
    false ⟨SpecModel.sampleControlBlock, ""⟩ (by decide) (by decide) (by decide)
    (by decide)).1 1 (by decide) (by decide)


/-- C2: on a witness stack of fewer than `2^32` fields, with `Script{}` a nil script: if
`parseTapScript` returns a non-nil script with index `i`, then `i` is not
`INVALID_CB_INDEX`, `i < len(fields)`, `GetControlBlockIndex()` is `i+1`, the field at
`i+1` has a valid control-block length (at least 33 and congruent to 1 mod 32), and
the script is `NewScript(fields[i])` with no parse error; if `GetControlBlockIndex()`
is `INVALID_CB_INDEX` it returns `(Script{}, INVALID_CB_INDEX)`; and it returns a
result whenever `HasAnnex` does. -/
theorem parseTapScript_spec (E : ScriptEnv) (s : Segwit E.Script)
    (hzero : E.IsNil E.zero = true) (hlen : s.fields.length < 4294967296) :
    (∀ ts i, parseTapScript E s = some (ts, i) → E.IsNil ts = false →
      i ≠ INVALID_CB_INDEX ∧ i < s.fields.length ∧
      s.GetControlBlockIndex = some (i + 1) ∧
      (∃ cb, s.fields[i + 1]? = some cb ∧
        33 ≤ cb.rawBytes.length ∧ cb.rawBytes.length % 32 = 1) ∧
      (∃ f, s.fields[i]? = some f ∧ ts = E.NewScript f.rawBytes) ∧
      E.HasParseError ts = false) ∧
    (s.GetControlBlockIndex = some INVALID_CB_INDEX →
      parseTapScript E s = some (E.zero, INVALID_CB_INDEX)) ∧
    (s.HasAnnex.isSome = true → (parseTapScript E s).isSome = true) := by
  refine ⟨?_, ?_, ?_⟩
  · intro ts i hp hnil
    unfold parseTapScript at hp
    cases hc : s.GetControlBlockIndex with
    | none => rw [hc] at hp; exact absurd hp (by simp)
    | some c =>
      rw [hc] at hp
      simp only [Option.bind_eq_bind, Option.some_bind] at hp
      by_cases hinv : c = INVALID_CB_INDEX
      · simp only [hinv, beq_self_eq_true, if_true, Option.pure_def, Option.some.injEq,
          Prod.mk.injEq] at hp
        rw [← hp.1, hzero] at hnil
        exact absurd hnil (by simp)
      · have hbeq : (c == INVALID_CB_INDEX) = false := by simpa using hinv
        simp only [hbeq, Bool.false_eq_true, if_false, index_natCast] at hp
        obtain ⟨a, -, hn, hcu, cb, hcb, h33, hmod⟩ := GetControlBlockIndex_valid s c hc hinv
        generalize hk : (if a then 1 else 0 : Nat) = k at hn hcu hcb
        have hk1 : k ≤ 1 := by subst hk; split <;> omega
        rw [uint32_of_lt _ (by omega)] at hcu
        have hsub : uint32Sub c 1 = c - 1 := uint32Sub_one c (by omega) (by omega)
        rw [hsub] at hp
        have hlt : c - 1 < s.fields.length := by omega
        rw [List.getElem?_eq_getElem hlt] at hp
        simp only [Option.some_bind, SegwitField.AsBytes] at hp
        split at hp
        · simp only [Option.pure_def, Option.some.injEq, Prod.mk.injEq] at hp
          rw [← hp.1, hzero] at hnil
          exact absurd hnil (by simp)
        · rename_i hbad
          simp only [Option.pure_def, Option.some.injEq, Prod.mk.injEq] at hp
          simp only [Bool.or_eq_true, not_or, Bool.not_eq_true] at hbad
          obtain ⟨hts, hi⟩ := hp
          have hi1 : i + 1 = c := by omega
          refine ⟨?_, by omega, by rw [hi1], ⟨cb, ?_, h33, by omega⟩,
            ⟨s.fields[c - 1], ?_, hts.symm⟩, ?_⟩
          · unfold INVALID_CB_INDEX; omega
          · rw [hi1, hcu]; exact hcb
          · rw [← hi]; exact List.getElem?_eq_getElem hlt
          · rw [← hts]; exact hbad.2
  · intro hc
    unfold parseTapScript
    rw [hc]
    simp
  · intro hdef
    cases ha : s.HasAnnex with
    | none => rw [ha] at hdef; exact absurd hdef (by simp)
    | some a =>
      unfold parseTapScript
      have heq := GetControlBlockIndex_eq s a ha
      cases hc : s.GetControlBlockIndex with
      | none =>
        rw [hc] at heq
        generalize (if a then 1 else 0 : Nat) = k at heq
        by_cases h : s.fields.length < 2 + k
        · simp [h] at heq
        · simp only [h, if_false] at heq
          rw [List.getElem?_eq_getElem (by omega)] at heq
          simp only [Option.some_bind] at heq
          split at heq <;> exact absurd heq (by simp)
      | some c =>
        simp only [Option.bind_eq_bind, Option.some_bind]
        by_cases hinv : c = INVALID_CB_INDEX
        · simp [hinv]
        · have hbeq : (c == INVALID_CB_INDEX) = false := by simpa using hinv
          simp only [hbeq, Bool.false_eq_true, if_false, index_natCast]
          obtain ⟨a', -, hn, hcu, -⟩ := GetControlBlockIndex_valid s c hc hinv
          generalize hk : (if a' then 1 else 0 : Nat) = k at hn hcu
          have hk1 : k ≤ 1 := by subst hk; split <;> omega
          rw [uint32_of_lt _ (by omega)] at hcu
          have hsub : uint32Sub c 1 = c - 1 := uint32Sub_one c (by omega) (by omega)
          rw [hsub, List.getElem?_eq_getElem (show c - 1 < s.fields.length by omega)]
          simp only [Option.some_bind]
          generalize (E.IsNil _ || E.HasParseError _) = bad
          cases bad <;> rfl

/-- The statement of C2 at `[01, tap script, control block]`: the tap script is found
at index 1, below the control block at index 2. -/
theorem parseTapScript_spec_witness :
    parseTapScript SpecModel.env
        (NewSegwit SpecModel.env [[1], SpecModel.sampleTapScript, SpecModel.sampleControlBlock])
      = some (SpecModel.env.NewScript SpecModel.sampleTapScript, 1) ∧
    (NewSegwit SpecModel.env [[1], SpecModel.sampleTapScript,
        SpecModel.sampleControlBlock]).GetControlBlockIndex = some (1 + 1) :=
  ⟨by decide,
   ((parseTapScript_spec SpecModel.env
      (NewSegwit SpecModel.env [[1], SpecModel.sampleTapScript, SpecModel.sampleControlBlock])
      (by decide) (by decide)).1
      (SpecModel.env.NewScript SpecModel.sampleTapScript) 1 (by decide) (by decide)).2.2.1⟩

set_option maxRecDepth 20000 in
theorem byte_version_parity (b : Byte) :
    ((b &&& 0x01).val = 0 ∨ (b &&& 0x01).val = 1) ∧ (b &&& 0xfe).val % 2 = 0 ∧
      (b &&& 0xfe).val + (b &&& 0x01).val = b.val := by
  revert b
  decide

/-- C3: for a Segwit whose tap script is non-nil and whose `GetControlBlockIndex()` is
a valid index `c` with control block `cb = fields[c]`, `GetTapLeafVersion()` is
`cb[0] & 0xFE` and `GetTapTweakParity()` is `(cb[0] & 0x01, nil)`; the parity is 0 or
1, the version is even, and version + parity = `cb[0]`. -/
theorem GetTapLeafVersion_GetTapTweakParity (E : ScriptEnv) (s : Segwit E.Script)
    (c : Nat) (cb : SegwitField) (b : Byte)
    (hts : E.IsNil s.tapScript = false) (hc : s.GetControlBlockIndex = some c)
    (hv : c ≠ INVALID_CB_INDEX) (hcb : s.fields[c]? = some cb)
    (hb : cb.rawBytes[0]? = some b) :
    GetTapLeafVersion E s = some (b &&& 0xfe) ∧
    GetTapTweakParity E s = some (b &&& 0x01, none) ∧
    ((b &&& 0x01).val = 0 ∨ (b &&& 0x01).val = 1) ∧
    (b &&& 0xfe).val % 2 = 0 ∧
    (b &&& 0xfe).val + (b &&& 0x01).val = b.val := by
  have hbeq : (c == INVALID_CB_INDEX) = false := by simpa using hv
  have h0 : index cb.rawBytes 0 = some b := by
    have := index_natCast cb.rawBytes 0
    simp only [Nat.cast_zero] at this
    rw [this, hb]
  refine ⟨?_, ?_, byte_version_parity b⟩
  · unfold GetTapLeafVersion
    simp [hc, hts, hv, index_natCast, hcb, SegwitField.AsBytes, h0]
  · unfold GetTapTweakParity
    simp [hc, hts, hv, index_natCast, hcb, SegwitField.AsBytes, h0]

/-- The statement of C3 at `[01, tap script, 33-byte control block starting c0]` with the
tap script set: leaf version `0xc0`, parity 0. -/
theorem GetTapLeafVersion_GetTapTweakParity_witness :
    GetTapLeafVersion SpecModel.env
        { NewSegwit SpecModel.env [[1], SpecModel.sampleTapScript, SpecModel.sampleControlBlock] with
          tapScript := SpecModel.env.NewScript SpecModel.sampleTapScript,
          tapScriptIndex := 1 } = some 0xc0 ∧
    GetTapTweakParity SpecModel.env
        { NewSegwit SpecModel.env [[1], SpecModel.sampleTapScript, SpecModel.sampleControlBlock] with
          tapScript := SpecModel.env.NewScript SpecModel.sampleTapScript,
          tapScriptIndex := 1 } = some (0, none) :=
  have h := GetTapLeafVersion_GetTapTweakParity SpecModel.env
    { NewSegwit SpecModel.env [[1], SpecModel.sampleTapScript, SpecModel.sampleControlBlock] with
      tapScript := SpecModel.env.NewScript SpecModel.sampleTapScript,
      tapScriptIndex := 1 }
    2 ⟨SpecModel.sampleControlBlock, ""⟩ 0xc0
    (by decide) (by decide) (by decide) (by decide) (by decide)
  ⟨h.1, h.2.1⟩


/-- The key-path field loop, started with `n ≥ 0` non-empty fields already counted:
it ends in `true` exactly when the count reaches `exact` and, if nothing was counted
yet, the first non-empty field to come is a valid Schnorr signature. -/
theorem IsValidTaprootKeyPath_loop_iff (E : ScriptEnv) (exact : Int) (fs : List SegwitField) :
    ∀ n : Int, 0 ≤ n →
      (IsValidTaprootKeyPath.loop E exact fs n = true ↔
        (n + ((fs.filter (fun f => decide (0 < f.rawBytes.length))).length : Int) = exact ∧
          (n = 0 → ∀ f, (fs.filter (fun f => decide (0 < f.rawBytes.length))).head? = some f →
            E.IsValidSchnorrSignature f.rawBytes = true))) := by
  induction fs with
  | nil =>
    intro n _
    simp [IsValidTaprootKeyPath.loop]
  | cons f rest ih =>
    intro n hn
    unfold IsValidTaprootKeyPath.loop
    by_cases hf : 0 < f.rawBytes.length
    · have hfilter : (f :: rest).filter (fun f => decide (0 < f.rawBytes.length)) =
          f :: rest.filter (fun f => decide (0 < f.rawBytes.length)) := by
        simp [List.filter_cons, hf]
      rw [hfilter]
      simp only [SegwitField.AsBytes, gt_iff_lt, hf, if_true, List.length_cons,
        List.head?_cons, Option.some.injEq, forall_eq']
      by_cases h0 : n = 0
      · subst h0
        simp only [beq_self_eq_true, if_true]
        by_cases hv : E.IsValidSchnorrSignature f.rawBytes = true
        · simp only [hv, Bool.not_true, Bool.false_eq_true, if_false]
          rw [ih (0 + 1) (by omega)]
          constructor
          · intro h; exact ⟨by push_cast; omega, fun _ => trivial⟩
          · intro h; exact ⟨by push_cast at h; omega, fun h1 => absurd h1 (by omega)⟩
        · simp only [Bool.not_eq_true] at hv
          simp [hv]
      · have hb : (n == 0) = false := by simpa using h0
        simp only [hb, Bool.false_eq_true, if_false]
        rw [ih (n + 1) (by omega)]
        constructor
        · intro h; exact ⟨by push_cast; omega, fun h1 => absurd h1 h0⟩
        · intro h; exact ⟨by push_cast at h; omega, fun h1 => absurd h1 (by omega)⟩
    · have hfilter : (f :: rest).filter (fun f => decide (0 < f.rawBytes.length)) =
          rest.filter (fun f => decide (0 < f.rawBytes.length)) := by
        simp [List.filter_cons, hf]
      rw [hfilter]
      simp only [SegwitField.AsBytes, gt_iff_lt, hf, if_false]
      exact ih n hn

/-- The key-path recogniser is its field loop run with `exactFieldCount` 2 when there is
an annex and 1 when there is none. -/
theorem IsValidTaprootKeyPath_eq_loop (E : ScriptEnv) (s : Segwit E.Script) (a : Bool)
    (hdef : s.HasAnnex = some a) :
    IsValidTaprootKeyPath E s =
      some (IsValidTaprootKeyPath.loop E (if a then 1 + 1 else 1) s.fields 0) := by
  unfold IsValidTaprootKeyPath
  rw [hdef]
  rfl

/-- C4: on a witness stack on which `HasAnnex` returns `a`, `IsValidTaprootKeyPath`
returns true exactly when the number of non-empty fields is `1 + (1 if a else 0)` and
the first non-empty field satisfies `IsValidSchnorrSignature`. -/
theorem IsValidTaprootKeyPath_iff (E : ScriptEnv) (s : Segwit E.Script) (a : Bool)
    (hdef : s.HasAnnex = some a) :
    ∃ r, IsValidTaprootKeyPath E s = some r ∧
      (r = true ↔
        ((s.fields.filter (fun f => decide (0 < f.rawBytes.length))).length
            = 1 + (if a then 1 else 0) ∧
          ∃ f, (s.fields.filter (fun f => decide (0 < f.rawBytes.length))).head? = some f ∧
            E.IsValidSchnorrSignature f.rawBytes = true)) := by
  refine ⟨_, IsValidTaprootKeyPath_eq_loop E s a hdef, ?_⟩
  rw [IsValidTaprootKeyPath_loop_iff E _ s.fields 0 (le_refl 0)]
  generalize s.fields.filter (fun f => decide (0 < f.rawBytes.length)) = ne
  constructor
  · rintro ⟨hcount, hfirst⟩
    have hlen : ne.length = 1 + (if a then 1 else 0) := by
      cases a <;> simp at hcount ⊢ <;> omega
    refine ⟨hlen, ?_⟩
    cases ne with
    | nil => simp at hlen; omega
    | cons f rest => exact ⟨f, rfl, hfirst rfl f rfl⟩
  · rintro ⟨hlen, f, hf, hv⟩
    refine ⟨?_, fun _ g hg => ?_⟩
    · cases a <;> simp at hlen ⊢ <;> omega
    · rw [hf] at hg
      cases hg
      exact hv

/-- The statement of C4 at `[65-byte Schnorr signature, annex 50 01]`: accepted. -/
theorem IsValidTaprootKeyPath_iff_witness :
    ∃ r, IsValidTaprootKeyPath SpecModel.env
        (NewSegwit SpecModel.env [SpecModel.sampleSchnorr65, [0x50, 0x01]]) = some r ∧
      (r = true ↔
        (((NewSegwit SpecModel.env [SpecModel.sampleSchnorr65, [0x50, 0x01]]).fields.filter
            (fun f => decide (0 < f.rawBytes.length))).length
            = 1 + (if true then 1 else 0) ∧
          ∃ f, ((NewSegwit SpecModel.env [SpecModel.sampleSchnorr65, [0x50, 0x01]]).fields.filter
              (fun f => decide (0 < f.rawBytes.length))).head? = some f ∧
            SpecModel.env.IsValidSchnorrSignature f.rawBytes = true)) :=
  IsValidTaprootKeyPath_iff SpecModel.env
    (NewSegwit SpecModel.env [SpecModel.sampleSchnorr65, [0x50, 0x01]]) true (by decide)

/-- Whatever the validators are: a leading empty field in front of a 65-byte Schnorr
signature that does not start `0x50` gives a stack that is a key path and on which the
signature passes the control-block length test. -/
theorem keyPath_leading_empty (E : ScriptEnv) (sig : List Byte) (h65 : sig.length = 65)
    (h50 : sig.head? ≠ some 0x50) (hv : E.IsValidSchnorrSignature sig = true) :
    IsValidTaprootKeyPath E (NewSegwit E [[], sig]) = some true ∧
    (NewSegwit E [[], sig]).GetControlBlockIndex = some 1 := by
  have ha : (NewSegwit E [[], sig]).HasAnnex = some false := by
    rw [HasAnnex_of_two_le _ (by simp [NewSegwit])]
    cases sig with
    | nil => simp at h65
    | cons b bs =>
      simp only [List.head?_cons, ne_eq, Option.some.injEq] at h50
      simp [NewSegwit, h50]
  constructor
  · rw [IsValidTaprootKeyPath_eq_loop E _ false ha]
    simp [NewSegwit, IsValidTaprootKeyPath.loop, SegwitField.AsBytes, h65, hv]
  · rw [GetControlBlockIndex_eq _ false ha]
    simp [NewSegwit, h65, uint32]

/-- C5 as stated fails: the stack `[empty, 65-byte Schnorr signature]` is accepted by
`IsValidTaprootKeyPath`, and `GetControlBlockIndex` returns 1 on it, not
`INVALID_CB_INDEX`. -/
theorem keyPath_with_control_block_counterexample :
    IsValidTaprootKeyPath SpecModel.env (NewSegwit SpecModel.env [[], SpecModel.sampleSchnorr65])
      = some true ∧
    (NewSegwit SpecModel.env [[], SpecModel.sampleSchnorr65]).GetControlBlockIndex = some 1 ∧
    (1 : Nat) ≠ INVALID_CB_INDEX := by
  decide

/-- C5 (amended): for every witness stack that `IsValidTaprootKeyPath` accepts and that
has no empty field, `GetControlBlockIndex()` returns `INVALID_CB_INDEX`. -/
theorem keyPath_no_control_block (E : ScriptEnv) (s : Segwit E.Script)
    (hkey : IsValidTaprootKeyPath E s = some true)
    (hne : ∀ f ∈ s.fields, f.rawBytes ≠ []) :
    s.GetControlBlockIndex = some INVALID_CB_INDEX := by
  cases ha : s.HasAnnex with
  | none =>
    unfold IsValidTaprootKeyPath at hkey
    rw [ha] at hkey
    exact absurd hkey (by simp)
  | some a =>
    rw [IsValidTaprootKeyPath_eq_loop E s a ha] at hkey
    have hcount :=
      ((IsValidTaprootKeyPath_loop_iff E _ s.fields 0 (le_refl 0)).1 (Option.some.inj hkey)).1
    have hlen : (s.fields.filter (fun f => decide (0 < f.rawBytes.length))).length
        = 1 + (if a then 1 else 0) := by
      cases a <;> simp at hcount ⊢ <;> omega
    have hall : s.fields.filter (fun f => decide (0 < f.rawBytes.length)) = s.fields := by
      rw [List.filter_eq_self]
      intro f hf
      have := hne f hf
      simp only [decide_eq_true_eq]
      exact List.length_pos.mpr this
    rw [hall] at hlen
    rw [GetControlBlockIndex_eq s a ha]
    have : s.fields.length < 2 + (if a then 1 else 0) := by omega
    simp only [this, if_true]

/-- The amended C5 at `[65-byte Schnorr signature, annex 50 01]`. -/
theorem keyPath_no_control_block_witness :
    IsValidTaprootKeyPath SpecModel.env
        (NewSegwit SpecModel.env [SpecModel.sampleSchnorr65, [0x50, 0x01]]) = some true ∧
    (NewSegwit SpecModel.env [SpecModel.sampleSchnorr65, [0x50, 0x01]]).GetControlBlockIndex
      = some INVALID_CB_INDEX :=
  ⟨by decide,
   keyPath_no_control_block SpecModel.env
    (NewSegwit SpecModel.env [SpecModel.sampleSchnorr65, [0x50, 0x01]]) (by decide) (by decide)⟩


theorem filter_nonEmpty_cons_pos (f : SegwitField) (rest : List SegwitField)
    (hf : 0 < f.rawBytes.length) :
    (f :: rest).filter (fun f => decide (0 < f.rawBytes.length)) =
      f :: rest.filter (fun f => decide (0 < f.rawBytes.length)) := by
  simp [List.filter_cons, hf]

theorem filter_nonEmpty_cons_zero (f : SegwitField) (rest : List SegwitField)
    (hf : ¬ 0 < f.rawBytes.length) :
    (f :: rest).filter (fun f => decide (0 < f.rawBytes.length)) =
      rest.filter (fun f => decide (0 < f.rawBytes.length)) := by
  simp [List.filter_cons, hf]

/-- The P2WPKH field loop with two or more non-empty fields already counted. -/
theorem IsValidP2wpkh_loop_two (E : ScriptEnv) (fs : List SegwitField) :
    ∀ n : Int, 2 ≤ n →
      (IsValidP2wpkh.loop E fs n = true ↔
        n = 2 ∧ fs.filter (fun f => decide (0 < f.rawBytes.length)) = []) := by
  induction fs with
  | nil =>
    intro n _
    simp [IsValidP2wpkh.loop]
  | cons f rest ih =>
    intro n hn
    unfold IsValidP2wpkh.loop
    have h0 : (n == 0) = false := by simp; omega
    have h1 : (n == 1) = false := by simp; omega
    by_cases hf : 0 < f.rawBytes.length
    · rw [filter_nonEmpty_cons_pos f rest hf]
      simp only [SegwitField.AsBytes, gt_iff_lt, hf, if_true, h0, h1, Bool.false_eq_true,
        if_false]
      rw [ih (n + 1) (by omega)]
      constructor
      · intro h; omega
      · intro h; exact absurd h.2 (by simp)
    · rw [filter_nonEmpty_cons_zero f rest hf]
      simp only [SegwitField.AsBytes, gt_iff_lt, hf, if_false]
      exact ih n hn

/-- The P2WPKH field loop with one non-empty field (the signature) already counted. -/
theorem IsValidP2wpkh_loop_one (E : ScriptEnv) (fs : List SegwitField) :
    IsValidP2wpkh.loop E fs 1 = true ↔
      ∃ pk, fs.filter (fun f => decide (0 < f.rawBytes.length)) = [pk] ∧
        E.IsValidECPublicKey pk.rawBytes = true := by
  induction fs with
  | nil => simp [IsValidP2wpkh.loop]
  | cons f rest ih =>
    unfold IsValidP2wpkh.loop
    by_cases hf : 0 < f.rawBytes.length
    · rw [filter_nonEmpty_cons_pos f rest hf]
      simp only [SegwitField.AsBytes, gt_iff_lt, hf, if_true]
      have h0 : ((1 : Int) == 0) = false := by decide
      simp only [h0, Bool.false_eq_true, if_false, beq_self_eq_true, if_true]
      by_cases hv : E.IsValidECPublicKey f.rawBytes = true
      · simp only [hv, Bool.not_true, Bool.false_eq_true, if_false]
        rw [IsValidP2wpkh_loop_two E rest (1 + 1) (by omega)]
        constructor
        · intro h; exact ⟨f, by rw [h.2], hv⟩
        · rintro ⟨pk, hpk, -⟩
          simp only [List.cons.injEq] at hpk
          exact ⟨by norm_num, hpk.2⟩
      · have hv' : E.IsValidECPublicKey f.rawBytes = false := by simpa using hv
        simp only [hv', Bool.not_false, if_true, Bool.false_eq_true, false_iff, not_exists,
          not_and]
        intro pk hpk
        simp only [List.cons.injEq] at hpk
        rw [← hpk.1, hv']
        simp
    · rw [filter_nonEmpty_cons_zero f rest hf]
      simp only [SegwitField.AsBytes, gt_iff_lt, hf, if_false]
      exact ih

/-- The P2WPKH field loop from the start. -/
theorem IsValidP2wpkh_loop_zero (E : ScriptEnv) (fs : List SegwitField) :
    IsValidP2wpkh.loop E fs 0 = true ↔
      ∃ sig pk, fs.filter (fun f => decide (0 < f.rawBytes.length)) = [sig, pk] ∧
        E.IsValidECSignature sig.rawBytes = true ∧
        E.IsValidECPublicKey pk.rawBytes = true := by
  induction fs with
  | nil => simp [IsValidP2wpkh.loop]
  | cons f rest ih =>
    unfold IsValidP2wpkh.loop
    by_cases hf : 0 < f.rawBytes.length
    · rw [filter_nonEmpty_cons_pos f rest hf]
      simp only [SegwitField.AsBytes, gt_iff_lt, hf, if_true, beq_self_eq_true]
      by_cases hv : E.IsValidECSignature f.rawBytes = true
      · simp only [hv, Bool.not_true, Bool.false_eq_true, if_false]
        rw [show ((0 : Int) + 1) = 1 by norm_num, IsValidP2wpkh_loop_one E rest]
        constructor
        · rintro ⟨pk, hpk, hpkv⟩
          exact ⟨f, pk, by rw [hpk], hv, hpkv⟩
        · rintro ⟨sig, pk, hl, -, hpkv⟩
          simp only [List.cons.injEq] at hl
          exact ⟨pk, hl.2, hpkv⟩
      · have hv' : E.IsValidECSignature f.rawBytes = false := by simpa using hv
        simp only [hv', Bool.not_false, if_true, Bool.false_eq_true, false_iff, not_exists,
          not_and]
        intro sig pk hl
        simp only [List.cons.injEq] at hl
        rw [← hl.1, hv']
        simp
    · rw [filter_nonEmpty_cons_zero f rest hf]
      simp only [SegwitField.AsBytes, gt_iff_lt, hf, if_false]
      exact ih

/-- Whatever the validators are: an empty field in front of an accepted signature and
an accepted public key gives a three-element stack that `IsValidP2wpkh` accepts. -/
theorem IsValidP2wpkh_leading_empty (E : ScriptEnv) (sig pk : List Byte)
    (hs : 0 < sig.length) (hp : 0 < pk.length)
    (hsv : E.IsValidECSignature sig = true) (hpv : E.IsValidECPublicKey pk = true) :
    IsValidP2wpkh E (NewSegwit E [[], sig, pk]) = true := by
  unfold IsValidP2wpkh
  have hlen : ¬ ((NewSegwit E [[], sig, pk]).fields.length < 2) := by simp [NewSegwit]
  simp only [hlen, if_false]
  rw [IsValidP2wpkh_loop_zero]
  refine ⟨⟨sig, ""⟩, ⟨pk, ""⟩, ?_, hsv, hpv⟩
  simp [NewSegwit, List.filter_cons, hs, hp]

/-- C6 as stated fails: the three-element stack `[empty, signature, public key]` is
accepted by `IsValidP2wpkh`, and its element 0 is not a valid EC signature. -/
theorem IsValidP2wpkh_three_elements_counterexample :
    IsValidP2wpkh SpecModel.env
        (NewSegwit SpecModel.env [[], SpecModel.sampleSig, SpecModel.samplePubKey]) = true ∧
    (NewSegwit SpecModel.env [[], SpecModel.sampleSig, SpecModel.samplePubKey]).fields.length = 3 ∧
    SpecModel.env.IsValidECSignature [] = false := by
  decide

/-- C6 (amended): on every witness stack on which `IsValidP2wpkh` returns true, the stack
has at least 2 elements and exactly 2 non-empty ones, the first non-empty element is a
valid EC signature and the second a valid EC public key; when no element is empty the
stack is exactly `<sig> <pubkey>`. -/
theorem IsValidP2wpkh_sig_pubkey (E : ScriptEnv) (s : Segwit E.Script)
    (h : IsValidP2wpkh E s = true) :
    2 ≤ s.fields.length ∧
    ∃ sig pk, s.fields.filter (fun f => decide (0 < f.rawBytes.length)) = [sig, pk] ∧
      E.IsValidECSignature sig.rawBytes = true ∧
      E.IsValidECPublicKey pk.rawBytes = true ∧
      ((∀ f ∈ s.fields, f.rawBytes ≠ []) → s.fields = [sig, pk]) := by
  unfold IsValidP2wpkh at h
  by_cases h2 : s.fields.length < 2
  · simp [h2] at h
  · simp only [h2, if_false] at h
    obtain ⟨sig, pk, hl, hs, hp⟩ := (IsValidP2wpkh_loop_zero E s.fields).1 h
    refine ⟨by omega, sig, pk, hl, hs, hp, fun hne => ?_⟩
    rw [← hl, List.filter_eq_self.mpr]
    intro f hf
    simp only [decide_eq_true_eq]
    exact List.length_pos.mpr (hne f hf)

/-- The amended C6 at the stack `[signature, public key]`. -/
theorem IsValidP2wpkh_sig_pubkey_witness :
    IsValidP2wpkh SpecModel.env
        (NewSegwit SpecModel.env [SpecModel.sampleSig, SpecModel.samplePubKey]) = true ∧
    2 ≤ (NewSegwit SpecModel.env [SpecModel.sampleSig, SpecModel.samplePubKey]).fields.length :=
  ⟨by decide,
   (IsValidP2wpkh_sig_pubkey SpecModel.env
      (NewSegwit SpecModel.env [SpecModel.sampleSig, SpecModel.samplePubKey]) (by decide)).1⟩

/-- C10: with `Script{}` a nil script, `parseWitnessScript` always returns; a non-nil
result means the stack has a last field, `NewScript` of it reports no parse error and
the result is exactly that script; whenever the last field parses without error the
result is `NewScript(last field)`; for the empty stack and for a last field with a
parse error the result is `Script{}` and `IsValidP2wsh` is false. -/
theorem parseWitnessScript_spec (E : ScriptEnv) (s : Segwit E.Script)
    (hzero : E.IsNil E.zero = true) :
    (∃ ws, parseWitnessScript E s = some ws) ∧
    (∀ ws, parseWitnessScript E s = some ws → E.IsNil ws = false →
      1 ≤ s.fields.length ∧
      ∃ f, s.fields.getLast? = some f ∧
        E.HasParseError (E.NewScript f.rawBytes) = false ∧ ws = E.NewScript f.rawBytes) ∧
    (∀ f, s.fields.getLast? = some f → E.HasParseError (E.NewScript f.rawBytes) = false →
      parseWitnessScript E s = some (E.NewScript f.rawBytes)) ∧
    (s.fields = [] →
      parseWitnessScript E s = some E.zero ∧ IsValidP2wsh E s = some false) ∧
    (∀ f, s.fields.getLast? = some f → E.HasParseError (E.NewScript f.rawBytes) = true →
      parseWitnessScript E s = some E.zero ∧ IsValidP2wsh E s = some false) := by
  have key : parseWitnessScript E s =
      match s.fields.getLast? with
      | none => some E.zero
      | some f =>
        if E.HasParseError (E.NewScript f.rawBytes) then some E.zero
        else some (E.NewScript f.rawBytes) := by
    unfold parseWitnessScript
    by_cases h : s.fields.length < 1
    · have hnil : s.fields = [] := List.length_eq_zero.mp (by omega)
      simp [hnil]
    · have h' : ¬ ((s.fields.length : Int) < 1) := by omega
      have hi := index_natCast_sub s.fields s.fields.length 1 (by omega)
      simp only [Nat.cast_one] at hi
      rw [List.getLast?_eq_getElem?]
      simp only [h', if_false, hi]
      rw [List.getElem?_eq_getElem (by omega)]
      simp only [Option.bind_eq_bind, Option.some_bind, SegwitField.AsBytes]
      split <;> rfl
  have hp2 : ∀ ws, parseWitnessScript E s = some ws →
      IsValidP2wsh E s = some (!E.IsNil ws) := by
    intro ws hws
    unfold IsValidP2wsh
    rw [hws]
    rfl
  refine ⟨?_, ?_, ?_, ?_, ?_⟩
  · rw [key]
    cases s.fields.getLast? with
    | none => exact ⟨_, rfl⟩
    | some f =>
      simp only
      split
      · exact ⟨_, rfl⟩
      · exact ⟨_, rfl⟩
  · intro ws hws hnil
    rw [key] at hws
    cases hl : s.fields.getLast? with
    | none =>
      rw [hl] at hws
      simp only [Option.some.injEq] at hws
      rw [← hws, hzero] at hnil
      exact absurd hnil (by simp)
    | some f =>
      rw [hl] at hws
      simp only at hws
      have hpos : 1 ≤ s.fields.length := by
        cases hf : s.fields with
        | nil => rw [hf] at hl; simp at hl
        | cons x xs => simp
      split at hws
      · simp only [Option.some.injEq] at hws
        rw [← hws, hzero] at hnil
        exact absurd hnil (by simp)
      · rename_i hpe
        simp only [Option.some.injEq] at hws
        exact ⟨hpos, f, rfl, by simpa using hpe, hws.symm⟩
  · intro f hl hpe
    rw [key, hl]
    simp [hpe]
  · intro hnil
    have h1 : parseWitnessScript E s = some E.zero := by
      rw [key, hnil]
      rfl
    exact ⟨h1, by rw [hp2 _ h1, hzero]; rfl⟩
  · intro f hl hpe
    have h1 : parseWitnessScript E s = some E.zero := by
      rw [key, hl]
      simp [hpe]
    exact ⟨h1, by rw [hp2 _ h1, hzero]; rfl⟩

/-- The statement of C10 at `[01, <32-byte key> OP_CHECKSIG]` (the last field parses)
and at `[01, 05 01 02]` (a push of 5 bytes with 2 bytes left: parse error). -/
theorem parseWitnessScript_spec_witness :
    parseWitnessScript SpecModel.env (NewSegwit SpecModel.env [[1], SpecModel.sampleTapScript])
      = some (SpecModel.env.NewScript SpecModel.sampleTapScript) ∧
    IsValidP2wsh SpecModel.env (NewSegwit SpecModel.env [[1], [0x05, 0x01, 0x02]]) = some false :=
  ⟨(parseWitnessScript_spec SpecModel.env
      (NewSegwit SpecModel.env [[1], SpecModel.sampleTapScript]) (by decide)).2.2.1
      ⟨SpecModel.sampleTapScript, ""⟩ (by decide) (by decide),
   ((parseWitnessScript_spec SpecModel.env
      (NewSegwit SpecModel.env [[1], [0x05, 0x01, 0x02]]) (by decide)).2.2.2.2
      ⟨[0x05, 0x01, 0x02], ""⟩ (by decide) (by decide)).2⟩

end Segwit

/-! ## Construction and labelling of a Segwit -/


/-- C11: `NewSegwit(rawFields)` stores the fields in order and unchanged (as many fields
as `rawFields` has, field `k` carrying the bytes `rawFields[k]` and the empty data
type), leaves the witness-script and tap-script slots at `Script{}` (nil when `Script{}`
is nil) and sets the tap script index to `INVALID_CB_INDEX`; `GetFieldCount()` is the
length of `rawFields` when that is below `2^32`. -/
theorem NewSegwit_spec (E : ScriptEnv) (rawFields : List (List Byte)) :
    (NewSegwit E rawFields).GetFields.length = rawFields.length ∧
    (NewSegwit E rawFields).GetFields.map SegwitField.AsBytes = rawFields ∧
    (∀ f ∈ (NewSegwit E rawFields).GetFields, f.AsType = "") ∧
    (∀ k : Nat, (NewSegwit E rawFields).GetFields[k]? =
      (rawFields[k]?).map (fun b => ({ rawBytes := b, dataType := "" } : SegwitField))) ∧
    (NewSegwit E rawFields).GetWitnessScript = E.zero ∧
    (NewSegwit E rawFields).GetTapScript = (E.zero, INVALID_CB_INDEX) ∧
    (rawFields.length < 4294967296 →
      (NewSegwit E rawFields).GetFieldCount = rawFields.length) ∧
    (E.IsNil E.zero = true →
      E.IsNil (NewSegwit E rawFields).GetWitnessScript = true ∧
      E.IsNil (NewSegwit E rawFields).GetTapScript.1 = true) := by
  refine ⟨?_, ?_, ?_, ?_, rfl, rfl, ?_, ?_⟩
  · simp [NewSegwit, Segwit.GetFields]
  · simp [NewSegwit, Segwit.GetFields, SegwitField.AsBytes, Function.comp_def]
  · intro f hf
    simp only [NewSegwit, Segwit.GetFields, List.mem_map] at hf
    obtain ⟨b, -, rfl⟩ := hf
    rfl
  · intro k
    simp [NewSegwit, Segwit.GetFields, List.getElem?_map]
  · intro h
    simp only [Segwit.GetFieldCount, NewSegwit, List.length_map]
    exact uint32_of_lt _ h
  · intro h
    exact ⟨h, h⟩

/-- The statement of C11 at the two raw fields `01` and `02 03`. -/
theorem NewSegwit_spec_witness :
    (NewSegwit SpecModel.env [[1], [2, 3]]).GetFieldCount = 2 ∧
    SpecModel.env.IsNil (NewSegwit SpecModel.env [[1], [2, 3]]).GetWitnessScript = true ∧
    SpecModel.env.IsNil (NewSegwit SpecModel.env [[1], [2, 3]]).GetTapScript.1 = true :=
  ⟨(NewSegwit_spec SpecModel.env [[1], [2, 3]]).2.2.2.2.2.2.1 (by decide),
   (NewSegwit_spec SpecModel.env [[1], [2, 3]]).2.2.2.2.2.2.2 (by decide)⟩


namespace Segwit

variable {Script : Type}

theorem setType_eq (fields : List SegwitField) (k : Nat) (dataType : String) (f : SegwitField)
    (hk : fields[k]? = some f) :
    setType fields (k : Int) dataType = some (fields.set k { f with dataType := dataType }) := by
  unfold setType
  rw [index_natCast, hk]
  rfl

theorem map_rawBytes_set (fields : List SegwitField) (k : Nat) (dataType : String)
    (f : SegwitField) (hk : fields[k]? = some f) :
    (fields.set k { f with dataType := dataType }).map (fun x => x.rawBytes) =
      fields.map (fun x => x.rawBytes) := by
  rw [List.map_set]
  apply List.ext_getElem?
  intro j
  by_cases hj : k = j
  · subst hj
    rw [List.getElem?_set_self' , List.getElem?_map, hk]
    simp [List.getElem?_map, hk]
  · rw [List.getElem?_set_ne hj]

theorem HasAnnex_congr (s t : Segwit Script)
    (h : t.fields.map (fun x => x.rawBytes) = s.fields.map (fun x => x.rawBytes)) :
    t.HasAnnex = s.HasAnnex := by
  have hl : t.fields.length = s.fields.length := by
    have := congrArg List.length h
    simpa using this
  have key : ∀ (u : Segwit Script) (k : Nat),
      (u.fields[k]?).bind (fun last => (last.rawBytes[0]?).bind (fun b => some (b == 0x50))) =
        ((u.fields.map (fun x => x.rawBytes))[k]?).bind
          (fun rb => (rb[0]?).bind (fun b => some (b == 0x50))) := by
    intro u k
    rw [List.getElem?_map]
    cases u.fields[k]? <;> rfl
  by_cases h1 : s.fields.length ≤ 1
  · rw [HasAnnex_of_le_one s h1, HasAnnex_of_le_one t (by omega)]
  · rw [HasAnnex_of_two_le s (by omega), HasAnnex_of_two_le t (by omega), key, key, h, hl]

theorem GetControlBlockIndex_congr (s t : Segwit Script)
    (h : t.fields.map (fun x => x.rawBytes) = s.fields.map (fun x => x.rawBytes)) :
    t.GetControlBlockIndex = s.GetControlBlockIndex := by
  have hl : t.fields.length = s.fields.length := by
    have := congrArg List.length h
    simpa using this
  have ha := HasAnnex_congr s t h
  cases hs : s.HasAnnex with
  | none =>
    rw [GetControlBlockIndex_eq_none s hs, GetControlBlockIndex_eq_none t (by rw [ha, hs])]
  | some a =>
    rw [GetControlBlockIndex_eq s a hs, GetControlBlockIndex_eq t a (by rw [ha, hs]), hl]
    have key : ∀ (u : Segwit Script) (k : Nat) (v : Nat),
        (u.fields[k]?).bind (fun cb =>
          if 33 ≤ cb.rawBytes.length ∧ (cb.rawBytes.length - 1) % 32 = 0 then some v
          else some INVALID_CB_INDEX) =
        ((u.fields.map (fun x => x.rawBytes))[k]?).bind (fun rb =>
          if 33 ≤ rb.length ∧ (rb.length - 1) % 32 = 0 then some v
          else some INVALID_CB_INDEX) := by
      intro u k v
      rw [List.getElem?_map]
      cases u.fields[k]? <;> rfl
    rw [key, key, h]


theorem getElem?_rawBytes_of_map_eq (fs gs : List SegwitField) (k : Nat) (f : SegwitField)
    (h : gs.map (fun x => x.rawBytes) = fs.map (fun x => x.rawBytes)) (hk : fs[k]? = some f) :
    ∃ g, gs[k]? = some g ∧ g.rawBytes = f.rawBytes := by
  have := congrArg (fun l => l[k]?) h
  simp only [List.getElem?_map, hk, Option.map_some'] at this
  cases hg : gs[k]? with
  | none => rw [hg] at this; simp at this
  | some g =>
    rw [hg] at this
    simp only [Option.map_some', Option.some.injEq] at this
    exact ⟨g, rfl, this⟩

/-- The two taproot getters on a Segwit whose control block is at `c`. -/
theorem tap_getters (E : ScriptEnv) (s : Segwit E.Script) (c : Nat) (cb : SegwitField)
    (b : Byte) (hc : s.GetControlBlockIndex = some c) (hv : c ≠ INVALID_CB_INDEX)
    (hcb : s.fields[c]? = some cb) (hb : cb.rawBytes[0]? = some b) :
    GetTapTweakParity E s =
      some (if E.IsNil s.tapScript then
              (0, some "Getting parity for field other than control block.")
            else (b &&& 0x01, none)) ∧
    GetTapLeafVersion E s = some (if E.IsNil s.tapScript then 0 else b &&& 0xfe) := by
  have h0 : index cb.rawBytes 0 = some b := by
    have := index_natCast cb.rawBytes 0
    simp only [Nat.cast_zero] at this
    rw [this, hb]
  constructor
  · unfold GetTapTweakParity
    cases hn : E.IsNil s.tapScript <;>
      simp [hc, hn, hv, index_natCast, hcb, SegwitField.AsBytes, h0]
  · unfold GetTapLeafVersion
    cases hn : E.IsNil s.tapScript <;>
      simp [hc, hn, hv, index_natCast, hcb, SegwitField.AsBytes, h0]


/-- The statements of `SetTapScript` after the annex has been labelled, run on fields
`F` that carry the same bytes as those of `s`. -/
theorem SetTapScript_tail (E : ScriptEnv) (s : Segwit E.Script) (F : List SegwitField)
    (ts : E.Script) (i c : Nat) (cb : SegwitField) (b : Byte) (K : Int)
    (hF : F.map (fun x => x.rawBytes) = s.fields.map (fun x => x.rawBytes))
    (hc : s.GetControlBlockIndex = some c) (hv : c ≠ INVALID_CB_INDEX)
    (hcb : s.fields[c]? = some cb) (hb : cb.rawBytes[0]? = some b)
    (hi : i < s.fields.length) :
    ∃ fi cb2, F[i]? = some fi ∧
      (F.set i { fi with dataType := "SERIALIZED TAP SCRIPT" })[c]? = some cb2 ∧
      cb2.rawBytes = cb.rawBytes ∧
      ((setType F (↑i) "SERIALIZED TAP SCRIPT").bind fun a =>
        (GetTapTweakParity E
            { fields := a, witnessScript := s.witnessScript, tapScript := ts,
              tapScriptIndex := i }).bind
          fun a_1 =>
          (GetTapLeafVersion E
              { fields := a, witnessScript := s.witnessScript, tapScript := ts,
                tapScriptIndex := i }).bind
            fun a_2 =>
            (setType a (↑c)
                (("Control Block (Version " ++ fmtX a_2 ++ ", Parity " ++ fmtD ↑↑a_1.1 ++ ", " ++
                        fmtD K ++ " " ++
                      if (K == 1) = true then "TapLea" ++ "f" else "TapLea" ++ "ves") ++ ")")).bind
              fun a =>
              some
                (({ fields := a, witnessScript := s.witnessScript,
                    tapScript := SetTapScript.loop E (E.GetFields ts) 0 ts,
                    tapScriptIndex := i } : Segwit E.Script),
                  match a_1.2 with
                  | some msg => [] ++ [msg]
                  | none => [])) =
        some
          ({ fields := (F.set i { fi with dataType := "SERIALIZED TAP SCRIPT" }).set c
              { cb2 with dataType :=
                  "Control Block (Version " ++ fmtX (if E.IsNil ts then 0 else b &&& 0xfe) ++
                    ", Parity " ++ fmtD ((if E.IsNil ts then (0 : Byte) else b &&& 0x01).val : Nat) ++
                    ", " ++ fmtD K ++ " " ++ (if K = 1 then "TapLeaf" else "TapLeaves") ++ ")" },
             witnessScript := s.witnessScript,
             tapScript := SetTapScript.loop E (E.GetFields ts) 0 ts, tapScriptIndex := i },
           if E.IsNil ts then ["Getting parity for field other than control block."] else []) := by
  have hl : F.length = s.fields.length := by
    have := congrArg List.length hF
    simpa using this
  have hiF : i < F.length := by omega
  refine ⟨F[i], ?_⟩
  have hFi : F[i]? = some F[i] := List.getElem?_eq_getElem hiF
  have hmap2 := map_rawBytes_set F i "SERIALIZED TAP SCRIPT" F[i] hFi
  obtain ⟨cb2, hcb2, hrb2⟩ := getElem?_rawBytes_of_map_eq s.fields
    (F.set i { F[i] with dataType := "SERIALIZED TAP SCRIPT" }) c cb (hmap2.trans hF) hcb
  refine ⟨cb2, hFi, hcb2, hrb2, ?_⟩
  have hc2 : GetControlBlockIndex
      ({ fields := F.set i { F[i] with dataType := "SERIALIZED TAP SCRIPT" },
         witnessScript := s.witnessScript, tapScript := ts, tapScriptIndex := i } :
        Segwit E.Script) = some c := by
    rw [GetControlBlockIndex_congr s _ (hmap2.trans hF), hc]
  obtain ⟨hpar, hver⟩ := tap_getters E _ c cb2 b hc2 hv hcb2 (by rw [hrb2]; exact hb)
  rw [setType_eq F i _ F[i] hFi]
  simp only [Option.some_bind]
  rw [hpar, hver]
  simp only [Option.some_bind]
  rw [setType_eq _ c _ cb2 hcb2]
  simp only [Option.some_bind]
  cases hn : E.IsNil ts <;> cases hK : (K == 1) <;> simp_all


/-- What `SetTapScript` returns on a Segwit with a control block at `c` and a tap script
index inside the stack. -/
theorem SetTapScript_result (E : ScriptEnv) (s : Segwit E.Script) (ts : E.Script)
    (i c : Nat) (a : Bool) (cb : SegwitField) (b : Byte)
    (ha : s.HasAnnex = some a) (hc : s.GetControlBlockIndex = some c)
    (hv : c ≠ INVALID_CB_INDEX) (hcb : s.fields[c]? = some cb)
    (hb : cb.rawBytes[0]? = some b) (hi : i < s.fields.length) :
    ∃ s', SetTapScript E s ts i =
        some (s', if E.IsNil ts then ["Getting parity for field other than control block."]
                  else []) ∧
      s'.tapScript = SetTapScript.loop E (E.GetFields ts) 0 ts ∧
      s'.tapScriptIndex = i ∧ s'.witnessScript = s.witnessScript ∧
      s'.fields.map (fun x => x.rawBytes) = s.fields.map (fun x => x.rawBytes) ∧
      (∃ f, s'.fields[c]? = some f ∧ f.dataType =
        "Control Block (Version " ++ fmtX (if E.IsNil ts then 0 else b &&& 0xfe) ++
          ", Parity " ++ fmtD ((if E.IsNil ts then (0 : Byte) else b &&& 0x01).val : Nat) ++
          ", " ++ fmtD (Int.tdiv ((cb.rawBytes.length : Int) - 1) 32) ++ " " ++
          (if Int.tdiv ((cb.rawBytes.length : Int) - 1) 32 = 1 then "TapLeaf"
           else "TapLeaves") ++ ")") ∧
      (i ≠ c → ∃ f, s'.fields[i]? = some f ∧ f.dataType = "SERIALIZED TAP SCRIPT") ∧
      (∀ k : Nat, k ≠ i → k ≠ c → (a = true → k + 1 ≠ s.fields.length) →
        s'.fields[k]? = s.fields[k]?) := by
  have e_cb : GetControlBlockIndex
      { s with tapScript := ts, tapScriptIndex := i } = some c := hc
  have e_ann : HasAnnex { s with tapScript := ts, tapScriptIndex := i } = some a := ha
  have hne : (c != INVALID_CB_INDEX) = true := by simpa using hv
  have e_leaf : SetTapScript.cbLeafCount { s with tapScript := ts, tapScriptIndex := i } =
      some (Int.tdiv ((cb.rawBytes.length : Int) - 1) 32) := by
    unfold SetTapScript.cbLeafCount
    rw [e_cb]
    simp only [Option.bind_eq_bind, Option.some_bind, hne, if_true, index_natCast]
    show (s.fields[c]?).bind _ = _
    rw [hcb]
    rfl
  have hcl : c < s.fields.length := by
    rcases Nat.lt_or_ge c s.fields.length with h | h
    · exact h
    · rw [List.getElem?_eq_none h] at hcb
      exact absurd hcb (by simp)
  cases a with
  | false =>
    obtain ⟨fi, cb2, hfi, hcb2, -, htail⟩ := SetTapScript_tail E s s.fields ts i c cb b
      (Int.tdiv ((cb.rawBytes.length : Int) - 1) 32) rfl hc hv hcb hb hi
    unfold SetTapScript
    simp only [e_cb, e_ann, e_leaf, Option.bind_eq_bind, Option.some_bind, hne, if_true,
      Bool.false_eq_true, if_false, Option.pure_def]
    refine ⟨_, htail, rfl, rfl, rfl, ?_, ⟨_, List.getElem?_set_self (by
      rw [List.length_set]; exact hcl), rfl⟩, ?_, ?_⟩
    · simp only
      rw [List.map_set, List.map_set]
      apply List.ext_getElem?
      intro j
      have h1 := congrArg (fun l => l[j]?) (map_rawBytes_set s.fields i
        "SERIALIZED TAP SCRIPT" fi hfi)
      have h2 := congrArg (fun l => l[j]?) (map_rawBytes_set
        (s.fields.set i { fi with dataType := "SERIALIZED TAP SCRIPT" }) c
        "x" cb2 hcb2)
      simp only [List.map_set] at h1 h2
      rw [← h1, ← h2]
    · intro hic
      refine ⟨{ fi with dataType := "SERIALIZED TAP SCRIPT" }, ?_, rfl⟩
      simp only
      rw [List.getElem?_set_ne (Ne.symm hic), List.getElem?_set_self hi]
    · intro k hki hkc _
      simp only
      rw [List.getElem?_set_ne (Ne.symm hkc), List.getElem?_set_ne (Ne.symm hki)]
  | true =>
    have hn2 : 2 ≤ s.fields.length := by
      by_contra hlt
      rw [HasAnnex_of_le_one s (by omega)] at ha
      exact absurd ha (by simp)
    obtain ⟨last, hlast⟩ : ∃ last, s.fields[s.fields.length - 1]? = some last :=
      ⟨_, List.getElem?_eq_getElem (by omega)⟩
    have hidx : index s.fields ((s.fields.length : Int) - 1) = some last := by
      have := index_natCast_sub s.fields s.fields.length 1 (by omega)
      simp only [Nat.cast_one] at this
      rw [this, hlast]
    have hsetA : ∀ label, setType s.fields ((s.fields.length : Int) - 1) label =
        some (s.fields.set (s.fields.length - 1) { last with dataType := label }) := by
      intro label
      have hcast : ((s.fields.length : Int) - 1) = ((s.fields.length - 1 : Nat) : Int) := by
        omega
      have := setType_eq s.fields (s.fields.length - 1) label last hlast
      rw [← hcast] at this
      exact this
    obtain ⟨fi, cb2, hfi, hcb2, -, htail⟩ := SetTapScript_tail E s
      (s.fields.set (s.fields.length - 1)
        { last with dataType :=
            "Annex (" ++ fmtD (last.AsBytes.length : Int) ++ " Bytes)" })
      ts i c cb b (Int.tdiv ((cb.rawBytes.length : Int) - 1) 32)
      (map_rawBytes_set s.fields _ _ _ hlast) hc hv hcb hb hi
    unfold SetTapScript
    simp only [e_cb, e_ann, e_leaf, Option.bind_eq_bind, Option.some_bind, hne, if_true,
      Bool.false_eq_true, if_false, Option.pure_def, hidx, hsetA]
    refine ⟨_, htail, rfl, rfl, rfl, ?_, ⟨_, List.getElem?_set_self (by
      rw [List.length_set, List.length_set]; exact hcl), rfl⟩, ?_, ?_⟩
    · simp only
      rw [List.map_set, List.map_set, List.map_set]
      apply List.ext_getElem?
      intro j
      have h0 := congrArg (fun l => l[j]?) (map_rawBytes_set s.fields (s.fields.length - 1)
        ("Annex (" ++ fmtD (last.AsBytes.length : Int) ++ " Bytes)") last hlast)
      have h1 := congrArg (fun l => l[j]?) (map_rawBytes_set _ i
        "SERIALIZED TAP SCRIPT" fi hfi)
      have h2 := congrArg (fun l => l[j]?) (map_rawBytes_set _ c "x" cb2 hcb2)
      simp only [List.map_set] at h0 h1 h2
      rw [← h0, ← h1, ← h2]
    · intro hic
      refine ⟨{ fi with dataType := "SERIALIZED TAP SCRIPT" }, ?_, rfl⟩
      simp only
      rw [List.getElem?_set_ne (Ne.symm hic), List.getElem?_set_self (by
        rw [List.length_set]; exact hi)]
    · intro k hki hkc hka
      have hkn : s.fields.length - 1 ≠ k := by
        have := hka trivial
        omega
      simp only
      rw [List.getElem?_set_ne (Ne.symm hkc), List.getElem?_set_ne (Ne.symm hki),
        List.getElem?_set_ne hkn]


/-- What `SetWitnessScript` returns on a non-empty stack. -/
theorem SetWitnessScript_result (E : ScriptEnv) (s : Segwit E.Script) (ws : E.Script)
    (hn : 1 ≤ s.fields.length) :
    ∃ last, s.fields[s.fields.length - 1]? = some last ∧
      SetWitnessScript E s ws =
        some { s with
          fields := s.fields.set (s.fields.length - 1)
            { last with dataType := "SERIALIZED WITNESS SCRIPT" },
          witnessScript := SetWitnessScript.loop E (E.GetFields ws) 0 ws } := by
  obtain ⟨last, hlast⟩ : ∃ last, s.fields[s.fields.length - 1]? = some last :=
    ⟨_, List.getElem?_eq_getElem (by omega)⟩
  refine ⟨last, hlast, ?_⟩
  have hcast : ((s.fields.length : Int) - 1) = ((s.fields.length - 1 : Nat) : Int) := by omega
  have hset := setType_eq s.fields (s.fields.length - 1) "SERIALIZED WITNESS SCRIPT" last hlast
  rw [← hcast] at hset
  unfold SetWitnessScript
  simp only [hset, Option.bind_eq_bind, Option.some_bind, Option.pure_def]

/-- C16 as stated fails: the labels are written in upper case.  On
`[01, tap script, control block]` the tap script field is labelled
`"SERIALIZED TAP SCRIPT"`, and on `[01, script]` the last field is labelled
`"SERIALIZED WITNESS SCRIPT"`. -/
theorem serialized_script_labels_counterexample :
    (SetTapScript SpecModel.env
        (NewSegwit SpecModel.env [[1], SpecModel.sampleTapScript, SpecModel.sampleControlBlock])
        (SpecModel.env.NewScript SpecModel.sampleTapScript) 1).map
        (fun r => r.1.fields.map (fun f => f.dataType)) =
      some ["", "SERIALIZED TAP SCRIPT", "Control Block (Version C0, Parity 0, 1 TapLeaf)"] ∧
    "SERIALIZED TAP SCRIPT" ≠ "Serialized Tap Script" ∧
    (SetWitnessScript SpecModel.env (NewSegwit SpecModel.env [[1], SpecModel.sampleTapScript])
        (SpecModel.env.NewScript SpecModel.sampleTapScript)).map
        (fun r => r.fields.map (fun f => f.dataType)) =
      some ["", "SERIALIZED WITNESS SCRIPT"] ∧
    "SERIALIZED WITNESS SCRIPT" ≠ "Serialized Witness Script" := by
  decide

/-- C16 (amended): on a stack of fewer than `2^32` fields with a valid control block at
index `c`, `SetTapScript(ts, i)` with `i < len(fields)` and `i ≠ c` labels the field at
index `i` exactly `"SERIALIZED TAP SCRIPT"`; on a non-empty stack `SetWitnessScript`
labels the last field exactly `"SERIALIZED WITNESS SCRIPT"`.  Both leave the bytes of
every field as they are and the data types of all other fields unchanged, except,
for `SetTapScript`, those of the annex and of the control block. -/
theorem SetTapScript_SetWitnessScript_labels (E : ScriptEnv) (s : Segwit E.Script)
    (ts ws : E.Script) (i c : Nat) :
    (s.GetControlBlockIndex = some c → c ≠ INVALID_CB_INDEX →
      s.fields.length < 4294967296 → i < s.fields.length → i ≠ c →
      ∃ s' out, SetTapScript E s ts i = some (s', out) ∧
        (∃ f, s'.fields[i]? = some f ∧ f.dataType = "SERIALIZED TAP SCRIPT") ∧
        (∀ k : Nat, k ≠ i → k ≠ c → (s.HasAnnex = some true → k + 1 ≠ s.fields.length) →
          s'.fields[k]? = s.fields[k]?) ∧
        s'.fields.map (fun x => x.rawBytes) = s.fields.map (fun x => x.rawBytes)) ∧
    (1 ≤ s.fields.length →
      ∃ s', SetWitnessScript E s ws = some s' ∧
        (∃ f, s'.fields[s.fields.length - 1]? = some f ∧
          f.dataType = "SERIALIZED WITNESS SCRIPT") ∧
        (∀ k : Nat, k + 1 ≠ s.fields.length → s'.fields[k]? = s.fields[k]?) ∧
        s'.fields.map (fun x => x.rawBytes) = s.fields.map (fun x => x.rawBytes)) := by
  constructor
  · intro hc hv hlen hi hic
    obtain ⟨a, ha, hn, hcu, cb, hcb, h33, -⟩ := GetControlBlockIndex_valid s c hc hv
    have hk1 : (if a then 1 else 0 : Nat) ≤ 1 := by split <;> omega
    rw [uint32_of_lt _ (by omega)] at hcu
    rw [← hcu] at hcb
    obtain ⟨b, hb⟩ : ∃ b, cb.rawBytes[0]? = some b :=
      ⟨_, List.getElem?_eq_getElem (by omega)⟩
    obtain ⟨s', hs', -, -, -, hraw, -, htap, hother⟩ :=
      SetTapScript_result E s ts i c a cb b ha hc hv hcb hb hi
    refine ⟨s', _, hs', htap hic, ?_, hraw⟩
    intro k hki hkc hka
    apply hother k hki hkc
    intro hat
    exact hka (by rw [ha, hat])
  · intro hn
    obtain ⟨last, hlast, hs'⟩ := SetWitnessScript_result E s ws hn
    refine ⟨_, hs', ⟨_, List.getElem?_set_self (by omega), rfl⟩, ?_, ?_⟩
    · intro k hk
      simp only
      rw [List.getElem?_set_ne (by omega)]
    · exact map_rawBytes_set s.fields _ _ last hlast

/-- The amended C16 at `[01, tap script, control block]` with tap script index 1 and at
the same stack with the last field as witness script. -/
theorem SetTapScript_SetWitnessScript_labels_witness :
    (∃ s' out, SetTapScript SpecModel.env
        (NewSegwit SpecModel.env [[1], SpecModel.sampleTapScript, SpecModel.sampleControlBlock])
        (SpecModel.env.NewScript SpecModel.sampleTapScript) 1 = some (s', out) ∧
      ∃ f, s'.fields[1]? = some f ∧ f.dataType = "SERIALIZED TAP SCRIPT") ∧
    (∃ s', SetWitnessScript SpecModel.env
        (NewSegwit SpecModel.env [[1], SpecModel.sampleTapScript, SpecModel.sampleControlBlock])
        (SpecModel.env.NewScript SpecModel.sampleControlBlock) = some s' ∧
      ∃ f, s'.fields[2]? = some f ∧ f.dataType = "SERIALIZED WITNESS SCRIPT") := by
  have h := SetTapScript_SetWitnessScript_labels SpecModel.env
    (NewSegwit SpecModel.env [[1], SpecModel.sampleTapScript, SpecModel.sampleControlBlock])
    (SpecModel.env.NewScript SpecModel.sampleTapScript)
    (SpecModel.env.NewScript SpecModel.sampleControlBlock) 1 2
  obtain ⟨s1, out, h1, h2, -⟩ := h.1 (by decide) (by decide) (by decide) (by decide) (by decide)
  obtain ⟨s2, h3, h4, -⟩ := h.2 (by decide)
  exact ⟨⟨s1, out, h1, h2⟩, ⟨s2, h3, h4⟩⟩


theorem tdiv_length (L : Nat) (h : 1 ≤ L) :
    Int.tdiv ((L : Int) - 1) 32 = (((L - 1) / 32 : Nat) : Int) := by
  have h0 : (0 : Int) ≤ (L : Int) - 1 := by omega
  rw [Int.tdiv_eq_ediv h0 (by norm_num)]
  omega

/-- C17 as stated fails: the version is written with `%X`, without the prefix `0x`.  On
`[01, tap script, 33-byte control block starting c0]` the control block is labelled
`"Control Block (Version C0, Parity 0, 1 TapLeaf)"`. -/
theorem control_block_label_counterexample :
    (SetTapScript SpecModel.env
        (NewSegwit SpecModel.env [[1], SpecModel.sampleTapScript, SpecModel.sampleControlBlock])
        (SpecModel.env.NewScript SpecModel.sampleTapScript) 1).map
        (fun r => (r.1.fields[2]?).map (fun f => f.dataType)) =
      some (some "Control Block (Version C0, Parity 0, 1 TapLeaf)") ∧
    "Control Block (Version C0, Parity 0, 1 TapLeaf)" ≠
      "Control Block (Version 0xC0, Parity 0, 1 TapLeaf)" := by
  decide

/-- C17 (amended): for a Segwit with a valid control block `cb = fields[c]` with first
byte `cb[0]`, a non-nil tap script `ts` and `i < len(fields)`, `SetTapScript(ts, i)`
labels the control-block field
`"Control Block (Version VV, Parity P, K TapLeaf)"` or `"... K TapLeaves)"`, where `VV`
is `cb[0] & 0xFE` in upper-case hexadecimal without prefix and without padding (the
verb `%X`), `P` is `cb[0] & 0x01` (the text `0` or `1`), `K = (len(cb) - 1) / 32`, and
the singular is used exactly when `K = 1`. -/
theorem SetTapScript_control_block_label (E : ScriptEnv) (s : Segwit E.Script)
    (ts : E.Script) (i c : Nat) (cb : SegwitField) (b : Byte)
    (hts : E.IsNil ts = false) (hc : s.GetControlBlockIndex = some c)
    (hv : c ≠ INVALID_CB_INDEX) (hcb : s.fields[c]? = some cb)
    (hb : cb.rawBytes[0]? = some b) (hi : i < s.fields.length) :
    ∃ s' out, SetTapScript E s ts i = some (s', out) ∧
      (∃ f, s'.fields[c]? = some f ∧ f.dataType =
        "Control Block (Version " ++ fmtX (b &&& 0xfe) ++ ", Parity " ++
          fmtD ((b &&& 0x01).val : Nat) ++ ", " ++
          fmtD (((cb.rawBytes.length - 1) / 32 : Nat) : Int) ++ " " ++
          (if (cb.rawBytes.length - 1) / 32 = 1 then "TapLeaf" else "TapLeaves") ++ ")") ∧
      (fmtD ((b &&& 0x01).val : Nat) = "0" ∨ fmtD ((b &&& 0x01).val : Nat) = "1") := by
  cases ha : s.HasAnnex with
  | none =>
    rw [GetControlBlockIndex_eq_none s ha] at hc
    exact absurd hc (by simp)
  | some a =>
    obtain ⟨s', hs', -, -, -, -, ⟨f, hf, hlabel⟩, -⟩ :=
      SetTapScript_result E s ts i c a cb b ha hc hv hcb hb hi
    have hL : 1 ≤ cb.rawBytes.length := by
      rcases Nat.lt_or_ge 0 cb.rawBytes.length with h | h
      · exact h
      · rw [List.getElem?_eq_none h] at hb
        exact absurd hb (by simp)
    refine ⟨s', _, hs', ⟨f, hf, ?_⟩, ?_⟩
    · rw [hlabel, tdiv_length _ hL]
      simp only [hts, Bool.false_eq_true, if_false]
      have hiff : ((((cb.rawBytes.length - 1) / 32 : Nat) : Int) = 1) ↔
          ((cb.rawBytes.length - 1) / 32 = 1) := by omega
      simp only [hiff]
    · rcases (byte_version_parity b).1 with h | h
      · left; rw [h]; decide
      · right; rw [h]; decide

/-- The amended C17 at `[01, tap script, 33-byte control block starting c0]`. -/
theorem SetTapScript_control_block_label_witness :
    ∃ s' out, SetTapScript SpecModel.env
        (NewSegwit SpecModel.env [[1], SpecModel.sampleTapScript, SpecModel.sampleControlBlock])
        (SpecModel.env.NewScript SpecModel.sampleTapScript) 1 = some (s', out) ∧
      ∃ f, s'.fields[2]? = some f ∧
        f.dataType = "Control Block (Version C0, Parity 0, 1 TapLeaf)" := by
  obtain ⟨s', out, h1, ⟨f, h2, h3⟩, -⟩ := SetTapScript_control_block_label SpecModel.env
    (NewSegwit SpecModel.env [[1], SpecModel.sampleTapScript, SpecModel.sampleControlBlock])
    (SpecModel.env.NewScript SpecModel.sampleTapScript) 1 2 ⟨SpecModel.sampleControlBlock, ""⟩
    0xc0 (by decide) (by decide) (by decide) (by decide) (by decide) (by decide)
  exact ⟨s', out, h1, f, h2, h3.trans (by decide)⟩

/-- C19 does not hold of the code: on the two-field stack `[01, empty]` the expression
`s.fields[fieldCount-1].AsBytes()[0]` of `HasAnnex` indexes an empty slice, so
`HasAnnex`, `GetControlBlockIndex`, `IsValidTaprootKeyPath` and
`IsValidTaprootScriptPath` all abort instead of returning. -/
theorem taproot_recognisers_abort_on_empty_last_field :
    (NewSegwit SpecModel.env [[0x01], []]).HasAnnex = none ∧
    (NewSegwit SpecModel.env [[0x01], []]).GetControlBlockIndex = none ∧
    IsValidTaprootKeyPath SpecModel.env (NewSegwit SpecModel.env [[0x01], []]) = none ∧
    IsValidTaprootScriptPath SpecModel.env (NewSegwit SpecModel.env [[0x01], []]) = none := by
  decide

/-- Whatever the script environment is: on a stack of two or more fields whose last
field is empty, the four taproot recognisers abort. -/
theorem taproot_recognisers_abort (E : ScriptEnv) (s : Segwit E.Script)
    (hn : 2 ≤ s.fields.length)
    (hlast : ∀ f, s.fields.getLast? = some f → f.rawBytes = []) :
    s.HasAnnex = none ∧ s.GetControlBlockIndex = none ∧
    IsValidTaprootKeyPath E s = none ∧ IsValidTaprootScriptPath E s = none := by
  have ha : s.HasAnnex = none := by
    rw [HasAnnex_of_two_le s hn]
    have hl : s.fields.getLast? = s.fields[s.fields.length - 1]? := List.getLast?_eq_getElem? _
    rw [hl] at hlast
    rw [List.getElem?_eq_getElem (show s.fields.length - 1 < s.fields.length by omega)] at hlast ⊢
    have := hlast _ rfl
    simp [this]
  have hc := GetControlBlockIndex_eq_none s ha
  refine ⟨ha, hc, ?_, ?_⟩
  · unfold IsValidTaprootKeyPath
    rw [ha]
    rfl
  · unfold IsValidTaprootScriptPath parseTapScript
    rw [hc]
    rfl

end Segwit

namespace Segwit

theorem SetTapScript_loop_eq (E : ScriptEnv) (ordinal : Bool)
    (hOrd : ∀ sc f t, E.IsOrdinal (E.SetFieldType sc f t) = E.IsOrdinal sc) :
    ∀ (fields : List E.Field) (n : Nat) (sc : E.Script), E.IsOrdinal sc = ordinal →
      SetTapScript.loop E fields (n : Int) sc =
        (fields.enumFrom n).foldl
          (fun sc p =>
            if E.IsOpcode p.2 then sc
            else E.SetFieldType sc (p.1 : Int) (Spec.tapFieldType E ordinal (E.AsBytes p.2)))
          sc := by
  intro fields
  induction fields with
  | nil => intro n sc _; rfl
  | cons field rest ih =>
    intro n sc hsc
    unfold SetTapScript.loop
    have hnext : ((n : Int) + 1) = ((n + 1 : Nat) : Int) := by push_cast; rfl
    simp only [List.enumFrom_cons, List.foldl_cons]
    cases hop : E.IsOpcode field
    · simp only [Bool.not_false, if_true, Bool.false_eq_true, if_false, hnext]
      rw [ih (n + 1) _ (by rw [hOrd, hsc])]
      simp only [Spec.tapFieldType, hsc]
    · simp only [Bool.not_true, Bool.false_eq_true, if_false, if_true, hnext]
      rw [ih (n + 1) sc hsc]

/-- The tap script and index a returning `SetTapScript` stores. -/
theorem SetTapScript_tapScript (E : ScriptEnv) (s : Segwit E.Script) (ts : E.Script)
    (i : Nat) (s' : Segwit E.Script) (out : List String)
    (h : SetTapScript E s ts i = some (s', out)) :
    s'.tapScript = SetTapScript.loop E (E.GetFields ts) 0 ts ∧ s'.tapScriptIndex = i := by
  unfold SetTapScript at h
  simp only [Option.bind_eq_bind, Option.bind_eq_some, Option.pure_def] at h
  obtain ⟨cbIndex, -, cbLeafCount, -, annex, -, h⟩ := h
  cases annex with
  | false =>
    simp only [Bool.false_eq_true, if_false, Option.some_bind, Option.bind_eq_some] at h
    obtain ⟨fields2, -, pe, -, version, -, fields3, -, h⟩ := h
    simp only [Option.some.injEq, Prod.mk.injEq] at h
    obtain ⟨h, -⟩ := h
    subst h
    exact ⟨rfl, rfl⟩
  | true =>
    simp only [if_true, Option.bind_eq_some] at h
    obtain ⟨annexField, -, fields1, -, s1, hs1, fields2, -, pe, -, version, -,
      fields3, -, h⟩ := h
    simp only [Option.some.injEq, Prod.mk.injEq] at h hs1
    obtain ⟨h, -⟩ := h
    subst h
    subst hs1
    exact ⟨rfl, rfl⟩

/-- C18: when relabelling a field does not change `IsOrdinal`, the tap script that
`SetTapScript(ts, i)` stores is `ts` with every data-push field given its
tapscript-context classification `GetStackItemType(bytes, true)`, except that for an
ordinal `ts` a push classified `"Schnorr Signature"` is given
`GetStackItemType(bytes, false)` instead; opcode fields are not relabelled. -/
theorem SetTapScript_ordinal_override (E : ScriptEnv) (ts : E.Script)
    (hOrd : ∀ sc f t, E.IsOrdinal (E.SetFieldType sc f t) = E.IsOrdinal sc) :
    SetTapScript.loop E (E.GetFields ts) 0 ts = Spec.relabelTapScript E ts ∧
    (∀ (s s' : Segwit E.Script) (i : Nat) (out : List String),
      SetTapScript E s ts i = some (s', out) →
        s'.GetTapScript = (Spec.relabelTapScript E ts, i)) ∧
    (∀ bytes, Spec.tapFieldType E false bytes = E.GetStackItemType bytes true) ∧
    (∀ bytes, E.GetStackItemType bytes true ≠ "Schnorr Signature" →
      Spec.tapFieldType E true bytes = E.GetStackItemType bytes true) ∧
    (∀ bytes, E.GetStackItemType bytes true = "Schnorr Signature" →
      Spec.tapFieldType E true bytes = E.GetStackItemType bytes false) := by
  have hloop : SetTapScript.loop E (E.GetFields ts) 0 ts = Spec.relabelTapScript E ts := by
    have := SetTapScript_loop_eq E (E.IsOrdinal ts) hOrd (E.GetFields ts) 0 ts rfl
    simp only [Nat.cast_zero] at this
    rw [this]
    rfl
  refine ⟨hloop, ?_, ?_, ?_, ?_⟩
  · intro s s' i out h
    obtain ⟨h1, h2⟩ := SetTapScript_tapScript E s ts i s' out h
    simp only [GetTapScript, Prod.mk.injEq]
    exact ⟨h1.trans hloop, h2⟩
  · intro bytes
    simp [Spec.tapFieldType]
  · intro bytes h
    simp [Spec.tapFieldType, h]
  · intro bytes h
    simp [Spec.tapFieldType, h]

/-- The statement of C18 at an ordinal tap script that carries a 64-byte push: the push
is typed `"64-Byte Data"`, not `"Schnorr Signature"`, and the opcodes keep their empty
type. -/
theorem SetTapScript_ordinal_override_witness :
    ∃ s' out, SetTapScript SpecModel.env
        (NewSegwit SpecModel.env [[1], SpecModel.sampleOrdinal, SpecModel.sampleControlBlock])
        (SpecModel.env.NewScript SpecModel.sampleOrdinal) 1 = some (s', out) ∧
      s'.GetTapScript =
        (Spec.relabelTapScript SpecModel.env (SpecModel.env.NewScript SpecModel.sampleOrdinal),
          1) ∧
      (Spec.relabelTapScript SpecModel.env
          (SpecModel.env.NewScript SpecModel.sampleOrdinal)).map (fun p => p.fieldTypes) =
        some ["", "", "3-Byte Data", "1-Byte Data", "10-Byte Data", "", "64-Byte Data", ""] := by
  have hs : (SetTapScript SpecModel.env
      (NewSegwit SpecModel.env [[1], SpecModel.sampleOrdinal, SpecModel.sampleControlBlock])
      (SpecModel.env.NewScript SpecModel.sampleOrdinal) 1).isSome = true := by decide
  obtain ⟨⟨s', out⟩, h⟩ := Option.isSome_iff_exists.mp hs
  have h2 := (SetTapScript_ordinal_override SpecModel.env
    (SpecModel.env.NewScript SpecModel.sampleOrdinal)
    (fun sc f t => by cases sc <;> rfl)).2.1 _ s' 1 out h
  exact ⟨s', out, h, h2, by decide⟩

end Segwit

/-! ## Field types of an Input -/

namespace Input

variable {E : ScriptEnv}

/-- The typing rule of the last branch of `setFieldTypes` for one field. -/
theorem setFieldTypes_loop_eq (I : InputEnv E) (stackItemStr : List Byte) :
    ∀ (fields : List String) (f : Nat), f + fields.length ≤ stackItemStr.length →
      setFieldTypes.loop I stackItemStr fields (f : Int) =
        some (List.zipWith
          (fun tag field => if tag == 111 then field else I.GetStackItemType field false false)
          (stackItemStr.drop f) fields) := by
  intro fields
  induction fields with
  | nil => intro f _; simp [setFieldTypes.loop]
  | cons field rest ih =>
    intro f hf
    simp only [List.length_cons] at hf
    unfold setFieldTypes.loop
    have hlt : f < stackItemStr.length := by omega
    rw [index_natCast, List.getElem?_eq_getElem hlt]
    have hnext : ((f : Int) + 1) = ((f + 1 : Nat) : Int) := by push_cast; rfl
    rw [hnext, ih (f + 1) (by omega)]
    rw [List.drop_eq_getElem_cons hlt, List.zipWith_cons_cons]
    rfl

theorem zipWith_rule_length (g : Byte → String → String) (tags : List Byte)
    (fields : List String) (h : fields.length ≤ tags.length) :
    (List.zipWith g tags fields).length = fields.length := by
  simp [List.length_zipWith]; omega

theorem zipWith_rule_getElem? (g : Byte → String → String) (tags : List Byte)
    (fields : List String) (k : Nat) (tag : Byte) (field : String)
    (ht : tags[k]? = some tag) (hf : fields[k]? = some field) :
    (List.zipWith g tags fields)[k]? = some (g tag field) := by
  rw [List.getElem?_zipWith, ht, hf]


/-- The field types the last branch of `setFieldTypes` computes for a script, before
the relabelling of the last one. -/
theorem legacy_branch (I : InputEnv E) (i : Input E.Script)
    (hst : i.spendType ∉ ["P2SH-P2WPKH", "P2SH-P2WSH", "P2WPKH", "P2WSH",
      "Taproot Key Path", "Taproot Script Path"])
    (hin : (I.GetFields i.inputScript).length ≤ (I.GetRawFieldTypes i.inputScript).length)
    (hre : (I.GetFields i.redeemScript).length ≤ (I.GetRawFieldTypes i.redeemScript).length) :
    setFieldTypes I i =
      (if (!E.IsNil i.redeemScript) = true then
          setString
            (List.zipWith
              (fun tag field => if tag == 111 then field else I.GetStackItemType field false false)
              (I.GetRawFieldTypes i.inputScript) (I.GetFields i.inputScript))
            (((I.GetFields i.inputScript).length : Int) - 1) "Serialized Redeem Script"
        else
          some (List.zipWith
            (fun tag field => if tag == 111 then field else I.GetStackItemType field false false)
            (I.GetRawFieldTypes i.inputScript) (I.GetFields i.inputScript))).bind
        (fun inputScriptFieldTypes =>
          some ({ i with
                  inputScript := I.SetFieldTypes i.inputScript inputScriptFieldTypes,
                  redeemScript := I.SetFieldTypes i.redeemScript
                    (List.zipWith
                      (fun tag field =>
                        if tag == 111 then field else I.GetStackItemType field false false)
                      (I.GetRawFieldTypes i.redeemScript) (I.GetFields i.redeemScript)) },
                if (!i.segwit.IsEmpty) = true then
                  [println [i.spendType ++ " has non-empty segwit."]]
                else [])) := by
  simp only [List.mem_cons, List.mem_singleton, List.not_mem_nil, or_false, not_or] at hst
  obtain ⟨h1, h2, h3, h4, h5, h6⟩ := hst
  have l1 := setFieldTypes_loop_eq I (I.GetRawFieldTypes i.inputScript)
    (I.GetFields i.inputScript) 0 (by simpa using hin)
  have l2 := setFieldTypes_loop_eq I (I.GetRawFieldTypes i.redeemScript)
    (I.GetFields i.redeemScript) 0 (by simpa using hre)
  simp only [Nat.cast_zero, List.drop_zero] at l1 l2
  have b1 : (i.spendType == "P2SH-P2WPKH") = false := by simpa using h1
  have b2 : (i.spendType == "P2SH-P2WSH") = false := by simpa using h2
  have b3 : (i.spendType == "P2WPKH") = false := by simpa using h3
  have b4 : (i.spendType == "P2WSH") = false := by simpa using h4
  have b5 : (i.spendType == "Taproot Key Path") = false := by simpa using h5
  have b6 : (i.spendType == "Taproot Script Path") = false := by simpa using h6
  unfold setFieldTypes
  simp only [b1, b2, b3, b4, b5, b6, Bool.or_self, Bool.false_eq_true, if_false, l1, l2,
    Option.bind_eq_bind, Option.some_bind]
  cases hn : E.IsNil i.redeemScript <;> simp


theorem setString_last (xs : List String) (v : String) (h : 1 ≤ xs.length) :
    setString xs ((xs.length : Int) - 1) v = some (xs.set (xs.length - 1) v) := by
  unfold setString
  have h1 : ¬ ((xs.length : Int) - 1 < 0 ∨ (xs.length : Int) - 1 ≥ (xs.length : Int)) := by omega
  have h2 : ((xs.length : Int) - 1).toNat = xs.length - 1 := by omega
  simp only [h1, if_false, h2]

end Input

/-- C12: an Input built by `NewInput` with spend type `P2SH-P2WPKH` or `P2SH-P2WSH` has
its input script given the field types `["Serialized Redeem Script"]` and its redeem
script given `["OP_0", "20-Byte Witness Program"]` respectively
`["OP_0", "32-Byte Witness Program"]`, whatever the field counts of the two scripts
are; `NewInput` returns in every such case and leaves the other members as passed. -/
theorem NewInput_p2sh_wrapped_field_types {E : ScriptEnv} (I : InputEnv E) (coinbase : Bool)
    (previousOutputTxId : List Byte) (previousOutputIndex : Nat) (spendType : String)
    (inputScript redeemScript : E.Script) (segwit : Segwit E.Script) (sequence : Nat)
    (h : spendType = "P2SH-P2WPKH" ∨ spendType = "P2SH-P2WSH") :
    ∃ i out,
      NewInput I coinbase previousOutputTxId previousOutputIndex spendType inputScript
        redeemScript segwit sequence = some (i, out) ∧
      i.inputScript = I.SetFieldTypes inputScript ["Serialized Redeem Script"] ∧
      i.redeemScript = I.SetFieldTypes redeemScript
        ["OP_0", if spendType = "P2SH-P2WPKH" then "20-Byte Witness Program"
                 else "32-Byte Witness Program"] ∧
      i.segwit = segwit ∧ i.spendType = spendType ∧ i.coinbase = coinbase := by
  rcases h with h | h
  · subst h
    refine ⟨_, _, rfl, ?_⟩
    simp
  · subst h
    have hne : ("P2SH-P2WSH" == "P2SH-P2WPKH") = false := by decide
    refine ⟨_, _, rfl, ?_⟩
    simp [hne]

/-- The statement of C12 at a `P2SH-P2WPKH` input whose input script has no field at
all and whose redeem script is `OP_1 OP_CHECKSIG`. -/
theorem NewInput_p2sh_wrapped_field_types_witness :
    ∃ i out,
      NewInput SpecModel.inputEnv false [] 0 "P2SH-P2WPKH" (SpecModel.env.NewScript [])
        (SpecModel.env.NewScript [0x51, 0xac]) (NewSegwit SpecModel.env []) 0 = some (i, out) ∧
      i.inputScript = SpecModel.inputEnv.SetFieldTypes (SpecModel.env.NewScript [])
        ["Serialized Redeem Script"] ∧
      i.redeemScript = SpecModel.inputEnv.SetFieldTypes (SpecModel.env.NewScript [0x51, 0xac])
        ["OP_0", if "P2SH-P2WPKH" = "P2SH-P2WPKH" then "20-Byte Witness Program"
                 else "32-Byte Witness Program"] ∧
      i.segwit = NewSegwit SpecModel.env [] ∧ i.spendType = "P2SH-P2WPKH" ∧
      i.coinbase = false :=
  NewInput_p2sh_wrapped_field_types SpecModel.inputEnv false [] 0 "P2SH-P2WPKH"
    (SpecModel.env.NewScript []) (SpecModel.env.NewScript [0x51, 0xac])
    (NewSegwit SpecModel.env []) 0 (Or.inl rfl)

/-- C13: for a spend type that is none of the P2SH-wrapped and witness types, a non-nil
redeem script and an input script of `k ≥ 1` fields (each script with a raw field
type tag for every field), `NewInput` returns an Input whose input script is given
`k` field types: the last one is `"Serialized Redeem Script"`, and every earlier field
`f` gets its own text when its tag is `'o'` and `GetStackItemType(field, false, false)`
otherwise; the redeem script's fields are typed by the same rule. -/
theorem NewInput_legacy_field_types {E : ScriptEnv} (I : InputEnv E) (coinbase : Bool)
    (previousOutputTxId : List Byte) (previousOutputIndex : Nat) (spendType : String)
    (inputScript redeemScript : E.Script) (segwit : Segwit E.Script) (sequence : Nat)
    (hst : spendType ∉ ["P2SH-P2WPKH", "P2SH-P2WSH", "P2WPKH", "P2WSH",
      "Taproot Key Path", "Taproot Script Path"])
    (hred : E.IsNil redeemScript = false)
    (hk : 1 ≤ (I.GetFields inputScript).length)
    (hin : (I.GetFields inputScript).length ≤ (I.GetRawFieldTypes inputScript).length)
    (hre : (I.GetFields redeemScript).length ≤ (I.GetRawFieldTypes redeemScript).length) :
    ∃ (i : Input E.Script) (out ts rs : List String),
      NewInput I coinbase previousOutputTxId previousOutputIndex spendType inputScript
        redeemScript segwit sequence = some (i, out) ∧
      i.inputScript = I.SetFieldTypes inputScript ts ∧
      i.redeemScript = I.SetFieldTypes redeemScript rs ∧
      ts.length = (I.GetFields inputScript).length ∧
      ts[(I.GetFields inputScript).length - 1]? = some "Serialized Redeem Script" ∧
      (∀ (f : Nat) (tag : Byte) (field : String), f < (I.GetFields inputScript).length - 1 →
        (I.GetRawFieldTypes inputScript)[f]? = some tag →
        (I.GetFields inputScript)[f]? = some field →
        ts[f]? = some (if tag = 111 then field else I.GetStackItemType field false false)) ∧
      rs.length = (I.GetFields redeemScript).length ∧
      (∀ (f : Nat) (tag : Byte) (field : String),
        (I.GetRawFieldTypes redeemScript)[f]? = some tag →
        (I.GetFields redeemScript)[f]? = some field →
        rs[f]? = some (if tag = 111 then field else I.GetStackItemType field false false)) := by
  have hb := Input.legacy_branch I
    { coinbase := coinbase, previousOutputTxId := previousOutputTxId,
      previousOutputIndex := previousOutputIndex, spendType := spendType,
      inputScript := inputScript, redeemScript := redeemScript, segwit := segwit,
      sequence := sequence } hst hin hre
  simp only [hred, Bool.not_false, if_true] at hb
  have hzl := Input.zipWith_rule_length
    (fun tag field => if tag == 111 then field else I.GetStackItemType field false false)
    (I.GetRawFieldTypes inputScript) (I.GetFields inputScript) hin
  have hsl := Input.setString_last
    (List.zipWith
      (fun tag field => if tag == 111 then field else I.GetStackItemType field false false)
      (I.GetRawFieldTypes inputScript) (I.GetFields inputScript))
    "Serialized Redeem Script" (by omega)
  rw [hzl] at hsl
  rw [hsl] at hb
  refine ⟨_, _, _, _, hb, rfl, rfl, ?_, ?_, ?_, ?_, ?_⟩
  · rw [List.length_set, hzl]
  · rw [List.getElem?_set_self]
    simp only [hzl]
    have : (I.GetFields inputScript).length - 1 < (I.GetFields inputScript).length := by omega
    simp [this]
  · intro f tag field hf htag hfield
    rw [List.getElem?_set_ne (by omega)]
    have := Input.zipWith_rule_getElem?
      (fun tag field => if tag == 111 then field else I.GetStackItemType field false false)
      _ _ f tag field htag hfield
    simpa using this
  · exact Input.zipWith_rule_length _ _ _ hre
  · intro f tag field htag hfield
    have := Input.zipWith_rule_getElem?
      (fun tag field => if tag == 111 then field else I.GetStackItemType field false false)
      _ _ f tag field htag hfield
    simpa using this


/-- The statement of C13 at the legacy P2SH input `OP_0 <signature> <redeem script>` with
redeem script `OP_1 OP_CHECKSIG`: three field types for the input script. -/
theorem NewInput_legacy_field_types_witness :
    ∃ (i : Input SpecModel.env.Script) (out ts : List String),
      NewInput SpecModel.inputEnv false [] 0 "P2SH"
        (SpecModel.env.NewScript ([0x00, 71] ++ SpecModel.sampleSig ++ [0x02, 0x51, 0xac]))
        (SpecModel.env.NewScript [0x51, 0xac]) (NewSegwit SpecModel.env []) 0 = some (i, out) ∧
      i.inputScript = SpecModel.inputEnv.SetFieldTypes
        (SpecModel.env.NewScript ([0x00, 71] ++ SpecModel.sampleSig ++ [0x02, 0x51, 0xac])) ts ∧
      ts.length = 3 ∧ ts[2]? = some "Serialized Redeem Script" := by
  obtain ⟨i, out, ts, rs, h1, h2, -, h4, h5, -⟩ :=
    NewInput_legacy_field_types SpecModel.inputEnv false [] 0 "P2SH"
      (SpecModel.env.NewScript ([0x00, 71] ++ SpecModel.sampleSig ++ [0x02, 0x51, 0xac]))
      (SpecModel.env.NewScript [0x51, 0xac]) (NewSegwit SpecModel.env []) 0
      (by decide) (by decide) (by decide) (by decide) (by decide)
  exact ⟨i, out, ts, h1, h2, h4.trans (by decide), h5⟩

/-- C14 as stated fails: a coinbase input whose input script is the single push
`03 01 02 03` has that field passed through the classifier and typed `"3-Byte Data"`,
not `"Coinbase Script"`. -/
theorem NewInput_coinbase_counterexample :
    (NewInput SpecModel.inputEnv true [] 0 "Coinbase"
        (SpecModel.env.NewScript [0x03, 0x01, 0x02, 0x03]) SpecModel.env.zero
        (NewSegwit SpecModel.env []) 0).map (fun r => r.1.inputScript) =
      some (SpecModel.inputEnv.SetFieldTypes
        (SpecModel.env.NewScript [0x03, 0x01, 0x02, 0x03])
        [SpecModel.inputEnv.GetStackItemType "010203" false false]) ∧
    SpecModel.inputEnv.GetStackItemType "010203" false false = "3-Byte Data" ∧
    "3-Byte Data" ≠ "Coinbase Script" := by
  decide

/-- C14 (amended): for a coinbase Input (`coinbase = true`, a spend type that is none of
the P2SH-wrapped and witness types, a nil redeem script) whose input script has a
single field, `NewInput` types that field as it types a legacy field: with its own
text when its raw field type tag is `'o'`, and with
`GetStackItemType(field, false, false)` otherwise. -/
theorem NewInput_coinbase_field_type {E : ScriptEnv} (I : InputEnv E)
    (previousOutputTxId : List Byte) (previousOutputIndex : Nat) (spendType : String)
    (inputScript redeemScript : E.Script) (segwit : Segwit E.Script) (sequence : Nat)
    (field : String) (tag : Byte) (tags : List Byte)
    (hst : spendType ∉ ["P2SH-P2WPKH", "P2SH-P2WSH", "P2WPKH", "P2WSH",
      "Taproot Key Path", "Taproot Script Path"])
    (hred : E.IsNil redeemScript = true)
    (hfields : I.GetFields inputScript = [field])
    (htags : I.GetRawFieldTypes inputScript = tag :: tags)
    (hre : (I.GetFields redeemScript).length ≤ (I.GetRawFieldTypes redeemScript).length) :
    ∃ (i : Input E.Script) (out : List String),
      NewInput I true previousOutputTxId previousOutputIndex spendType inputScript
        redeemScript segwit sequence = some (i, out) ∧
      i.inputScript = I.SetFieldTypes inputScript
        [if tag = 111 then field else I.GetStackItemType field false false] := by
  have hb := Input.legacy_branch I
    { coinbase := true, previousOutputTxId := previousOutputTxId,
      previousOutputIndex := previousOutputIndex, spendType := spendType,
      inputScript := inputScript, redeemScript := redeemScript, segwit := segwit,
      sequence := sequence } hst (by simp [hfields, htags]) hre
  simp only [hred, Bool.not_true, Bool.false_eq_true, if_false, Option.some_bind, hfields,
    htags, List.zipWith_cons_cons, List.zipWith_nil_right] at hb
  refine ⟨_, _, hb, ?_⟩
  simp

/-- The amended C14 at the coinbase input whose script is the single push `03 01 02 03`. -/
theorem NewInput_coinbase_field_type_witness :
    ∃ (i : Input SpecModel.env.Script) (out : List String),
      NewInput SpecModel.inputEnv true [] 0 "Coinbase"
        (SpecModel.env.NewScript [0x03, 0x01, 0x02, 0x03]) SpecModel.env.zero
        (NewSegwit SpecModel.env []) 0 = some (i, out) ∧
      i.inputScript = SpecModel.inputEnv.SetFieldTypes
        (SpecModel.env.NewScript [0x03, 0x01, 0x02, 0x03])
        [if (100 : Byte) = 111 then "010203"
         else SpecModel.inputEnv.GetStackItemType "010203" false false] :=
  NewInput_coinbase_field_type SpecModel.inputEnv [] 0 "Coinbase"
    (SpecModel.env.NewScript [0x03, 0x01, 0x02, 0x03]) SpecModel.env.zero
    (NewSegwit SpecModel.env []) 0 "010203" 100 [] (by decide) (by decide) (by decide)
    (by decide) (by decide)

namespace Input

/-- A second run of `setFieldTypes` on the Input a first run returned. -/
theorem setFieldTypes_twice {E : ScriptEnv} (I : InputEnv E) (i0 i : Input E.Script)
    (out : List String)
    (hF : ∀ sc l, I.GetFields (I.SetFieldTypes sc l) = I.GetFields sc)
    (hR : ∀ sc l, I.GetRawFieldTypes (I.SetFieldTypes sc l) = I.GetRawFieldTypes sc)
    (hN : ∀ sc l, E.IsNil (I.SetFieldTypes sc l) = E.IsNil sc)
    (hS : ∀ sc l, I.SetFieldTypes (I.SetFieldTypes sc l) l = I.SetFieldTypes sc l)
    (hnew : setFieldTypes I i0 = some (i, out)) :
    ∃ out2, setFieldTypes I i = some (i, out2) := by
  by_cases hp : i0.spendType = "P2SH-P2WPKH" ∨ i0.spendType = "P2SH-P2WSH"
  · have hcond : (i0.spendType == "P2SH-P2WPKH" || i0.spendType == "P2SH-P2WSH") = true := by
      simpa using hp
    unfold setFieldTypes at hnew
    simp only [hcond, if_true, Option.some.injEq, Prod.mk.injEq] at hnew
    obtain ⟨hi, -⟩ := hnew
    have hsp2 : i.spendType = i0.spendType := by rw [← hi]
    have hcond2 : (i.spendType == "P2SH-P2WPKH" || i.spendType == "P2SH-P2WSH") = true := by
      rw [hsp2]; exact hcond
    unfold setFieldTypes
    simp only [hcond2, if_true, Option.some.injEq, Prod.mk.injEq, exists_eq_right']
    subst hi
    simp only [hS]
  · have hcond : (i0.spendType == "P2SH-P2WPKH" || i0.spendType == "P2SH-P2WSH") = false := by
      simpa using hp
    by_cases hw : i0.spendType = "P2WPKH" ∨ i0.spendType = "P2WSH" ∨
        i0.spendType = "Taproot Key Path" ∨ i0.spendType = "Taproot Script Path"
    · have hcondw : (i0.spendType == "P2WPKH" || i0.spendType == "P2WSH" ||
          i0.spendType == "Taproot Key Path" || i0.spendType == "Taproot Script Path") = true := by
        simpa [or_assoc] using hw
      unfold setFieldTypes at hnew
      simp only [hcond, hcondw, Bool.false_eq_true, if_false, if_true, Option.some.injEq,
        Prod.mk.injEq] at hnew
      obtain ⟨hi, -⟩ := hnew
      subst hi
      unfold setFieldTypes
      simp only [hcond, hcondw, Bool.false_eq_true, if_false, if_true, Option.some.injEq,
        Prod.mk.injEq, true_and, exists_eq']
    · have hcondw : (i0.spendType == "P2WPKH" || i0.spendType == "P2WSH" ||
          i0.spendType == "Taproot Key Path" || i0.spendType == "Taproot Script Path") = false := by
        simp only [not_or] at hw
        simp [hw.1, hw.2.1, hw.2.2.1, hw.2.2.2]
      -- the first run
      unfold setFieldTypes at hnew
      simp only [hcond, hcondw, Bool.false_eq_true, if_false, Option.bind_eq_bind] at hnew
      cases hl1 : setFieldTypes.loop I (I.GetRawFieldTypes i0.inputScript)
          (I.GetFields i0.inputScript) 0 with
      | none => rw [hl1] at hnew; exact absurd hnew (by simp)
      | some T =>
        rw [hl1] at hnew
        simp only [Option.some_bind] at hnew
        cases hl2 : setFieldTypes.loop I (I.GetRawFieldTypes i0.redeemScript)
            (I.GetFields i0.redeemScript) 0 with
        | none =>
          rw [hl2] at hnew
          cases hn : E.IsNil i0.redeemScript <;> simp [hn] at hnew
        | some R =>
          rw [hl2] at hnew
          cases hn : E.IsNil i0.redeemScript
          · simp only [hn, Bool.not_false, if_true, Option.some_bind] at hnew
            cases hT : setString T (((I.GetFields i0.inputScript).length : Int) - 1)
                "Serialized Redeem Script" with
            | none => rw [hT] at hnew; exact absurd hnew (by simp)
            | some T2 =>
              rw [hT] at hnew
              simp only [Option.some_bind, Option.some.injEq, Prod.mk.injEq] at hnew
              obtain ⟨hi, -⟩ := hnew
              subst hi
              unfold setFieldTypes
              simp only [hcond, hcondw, Bool.false_eq_true, if_false, Option.bind_eq_bind, hF,
                hR, hN, hl1, hl2, Option.some_bind, hn, Bool.not_false, if_true, hT, hS,
                Option.some.injEq, Prod.mk.injEq, true_and, exists_eq']
          · simp only [hn, Bool.not_true, Bool.false_eq_true, if_false, Option.some_bind,
              Option.some.injEq, Prod.mk.injEq] at hnew
            obtain ⟨hi, -⟩ := hnew
            subst hi
            unfold setFieldTypes
            simp only [hcond, hcondw, Bool.false_eq_true, if_false, Option.bind_eq_bind, hF,
              hR, hN, hl1, hl2, Option.some_bind, hn, Bool.not_true, hS,
              Option.some.injEq, Prod.mk.injEq, true_and, exists_eq']

end Input

/-- C15: when `SetFieldTypes` changes neither `GetFields`, `GetRawFieldTypes` nor `IsNil`
of a script and setting the same types twice is the same as setting them once, then
for every Input that `NewInput` returns (any spend type) a second run of
`setFieldTypes` returns the same Input: input script, redeem script and segwit are
what they were after the first run. -/
theorem setFieldTypes_idempotent {E : ScriptEnv} (I : InputEnv E) (coinbase : Bool)
    (previousOutputTxId : List Byte) (previousOutputIndex : Nat) (spendType : String)
    (inputScript redeemScript : E.Script) (segwit : Segwit E.Script) (sequence : Nat)
    (i : Input E.Script) (out : List String)
    (hF : ∀ sc l, I.GetFields (I.SetFieldTypes sc l) = I.GetFields sc)
    (hR : ∀ sc l, I.GetRawFieldTypes (I.SetFieldTypes sc l) = I.GetRawFieldTypes sc)
    (hN : ∀ sc l, E.IsNil (I.SetFieldTypes sc l) = E.IsNil sc)
    (hS : ∀ sc l, I.SetFieldTypes (I.SetFieldTypes sc l) l = I.SetFieldTypes sc l)
    (hnew : NewInput I coinbase previousOutputTxId previousOutputIndex spendType inputScript
      redeemScript segwit sequence = some (i, out)) :
    ∃ out2, Input.setFieldTypes I i = some (i, out2) := by
  obtain ⟨out2, h2⟩ := Input.setFieldTypes_twice I _ i out hF hR hN hS hnew
  exact ⟨out2, h2⟩


/-- The statement of C15 at the legacy P2SH input `OP_0 <signature> <redeem script>`. -/
theorem setFieldTypes_idempotent_witness :
    ∃ (i : Input SpecModel.env.Script) (out out2 : List String),
      NewInput SpecModel.inputEnv false [] 0 "P2SH"
        (SpecModel.env.NewScript ([0x00, 71] ++ SpecModel.sampleSig ++ [0x02, 0x51, 0xac]))
        (SpecModel.env.NewScript [0x51, 0xac]) (NewSegwit SpecModel.env []) 0 = some (i, out) ∧
      Input.setFieldTypes SpecModel.inputEnv i = some (i, out2) := by
  have hs : (NewInput SpecModel.inputEnv false [] 0 "P2SH"
      (SpecModel.env.NewScript ([0x00, 71] ++ SpecModel.sampleSig ++ [0x02, 0x51, 0xac]))
      (SpecModel.env.NewScript [0x51, 0xac]) (NewSegwit SpecModel.env []) 0).isSome = true := by
    decide
  obtain ⟨⟨i, out⟩, h⟩ := Option.isSome_iff_exists.mp hs
  obtain ⟨out2, h2⟩ := setFieldTypes_idempotent SpecModel.inputEnv false [] 0 "P2SH"
    (SpecModel.env.NewScript ([0x00, 71] ++ SpecModel.sampleSig ++ [0x02, 0x51, 0xac]))
    (SpecModel.env.NewScript [0x51, 0xac]) (NewSegwit SpecModel.env []) 0 i out
    (fun sc l => by cases sc <;> rfl) (fun sc l => by cases sc <;> rfl)
    (fun sc l => by cases sc <;> rfl) (fun sc l => by cases sc <;> rfl) h
  exact ⟨i, out, out2, h, h2⟩

/-! ## The REST dispatcher -/

namespace Rest

theorem println_singleton (m : String) : println [m] = m := rfl

theorem length_append_pos (a b : String) (h : 0 < b.length) : 0 < (a ++ b).length := by
  rw [String.length_append]; omega

theorem length_append_pos_left (a b : String) (h : 0 < a.length) : 0 < (a ++ b).length := by
  rw [String.length_append]; omega

/-- The outcome of `HandleRequest` when its `switch` left with an error message before
decoding the body. -/
theorem HandleRequest_of_refuse (api : RestEnv) (httpMethod functionName : String)
    (getParams : List String) (requestBody : api.Body) (m : String) (hm : 0 < m.length)
    (h : HandleRequest.switch api httpMethod functionName requestBody =
      HandleRequest.refuse m) :
    HandleRequest api httpMethod functionName getParams requestBody =
      some { response := api.marshalRestError m, stdout := [m], bodyRead := false,
             nodeQueried := false } := by
  unfold HandleRequest
  rw [h]
  simp only [HandleRequest.refuse, Option.bind_eq_bind, Option.some_bind, gt_iff_lt, hm,
    if_true, List.nil_append, println_singleton, Option.pure_def]

/-- C20: for every function name other than `block`, `tx`, `current_block_height`,
`output_types` and `previous_output`, and for each of these five called with the wrong
HTTP method (anything but `GET` for `current_block_height`, anything but `POST` for the
other four), `HandleRequest` returns `json.Marshal(RestError{Error: m})` for a
non-empty message `m`, which it also prints; the request body is not read and the node
is not queried. -/
theorem HandleRequest_error_envelope (api : RestEnv) (httpMethod functionName : String)
    (getParams : List String) (requestBody : api.Body)
    (h : functionName ∉ ["block", "tx", "current_block_height", "output_types",
          "previous_output"] ∨
        (functionName = "current_block_height" ∧ httpMethod ≠ "GET") ∨
        (functionName ∈ ["block", "tx", "output_types", "previous_output"] ∧
          httpMethod ≠ "POST")) :
    ∃ m : String, 0 < m.length ∧
      HandleRequest api httpMethod functionName getParams requestBody =
        some { response := api.marshalRestError m, stdout := [m], bodyRead := false,
               nodeQueried := false } ∧
      m = (if functionName = "block" ∨ functionName = "output_types" ∨
              functionName = "previous_output" then
             functionName ++ " must be sent as a POST request."
           else if functionName = "tx" then
             functionName ++ " must be sent as a POST request. " ++ httpMethod
           else if functionName = "current_block_height" then
             functionName ++ " must be sent as a GET request."
           else "Unknown REST v1 function: " ++ functionName) := by
  rcases h with h | ⟨hf, hm⟩ | ⟨hf, hm⟩
  · simp only [List.mem_cons, List.mem_singleton, List.not_mem_nil, or_false, not_or] at h
    obtain ⟨h1, h2, h3, h4, h5⟩ := h
    refine ⟨"Unknown REST v1 function: " ++ functionName, ?_, ?_, ?_⟩
    · exact length_append_pos_left _ _ (by decide)
    · apply HandleRequest_of_refuse
      · exact length_append_pos_left _ _ (by decide)
      · unfold HandleRequest.switch
        simp [h1, h2, h3, h4, h5]
    · simp [h1, h2, h3, h4, h5]
  · subst hf
    have hb : (httpMethod != "GET") = true := by simpa using hm
    refine ⟨"current_block_height" ++ " must be sent as a GET request.", by decide, ?_, ?_⟩
    · apply HandleRequest_of_refuse
      · decide
      · unfold HandleRequest.switch
        simp [hb]
    · simp
  · have hb : (httpMethod != "POST") = true := by simpa using hm
    simp only [List.mem_cons, List.mem_singleton, List.not_mem_nil, or_false] at hf
    rcases hf with hf | hf | hf | hf
    · subst hf
      refine ⟨"block" ++ " must be sent as a POST request.", by decide, ?_, ?_⟩
      · apply HandleRequest_of_refuse
        · decide
        · unfold HandleRequest.switch
          simp [hb]
      · simp
    · subst hf
      refine ⟨"tx" ++ " must be sent as a POST request. " ++ httpMethod, ?_, ?_, ?_⟩
      · exact length_append_pos_left _ _ (by decide)
      · apply HandleRequest_of_refuse
        · exact length_append_pos_left _ _ (by decide)
        · unfold HandleRequest.switch
          simp [hb]
      · simp
    · subst hf
      refine ⟨"output_types" ++ " must be sent as a POST request.", by decide, ?_, ?_⟩
      · apply HandleRequest_of_refuse
        · decide
        · unfold HandleRequest.switch
          simp [hb]
      · simp
    · subst hf
      refine ⟨"previous_output" ++ " must be sent as a POST request.", by decide, ?_, ?_⟩
      · apply HandleRequest_of_refuse
        · decide
        · unfold HandleRequest.switch
          simp [hb]
      · simp

/-- The statement of C20 at a `GET` request for `block`. -/
theorem HandleRequest_error_envelope_witness :
    ∃ m : String, 0 < m.length ∧
      HandleRequest SpecModel.restEnv "GET" "block" [] "" =
        some { response := SpecModel.restEnv.marshalRestError m, stdout := [m],
               bodyRead := false, nodeQueried := false } ∧
      m = "block must be sent as a POST request." := by
  obtain ⟨m, h1, h2, h3⟩ := HandleRequest_error_envelope SpecModel.restEnv "GET" "block" [] ""
    (Or.inr (Or.inr ⟨by decide, by decide⟩))
  exact ⟨m, h1, h2, h3.trans (by decide)⟩

end Rest

/-! ## Safety of `SetTapScript`, `NewInput` and the settings check -/

namespace Segwit

/-- What a non-nil script returned by `parseTapScript` says about the control block. -/
theorem parseTapScript_some (E : ScriptEnv) (s : Segwit E.Script) (ts : E.Script) (i : Nat)
    (hzero : E.IsNil E.zero = true) (hp : parseTapScript E s = some (ts, i))
    (hnil : E.IsNil ts = false) :
    ∃ c, s.GetControlBlockIndex = some c ∧ c ≠ INVALID_CB_INDEX ∧ i = uint32Sub c 1 := by
  unfold parseTapScript at hp
  cases hc : s.GetControlBlockIndex with
  | none => rw [hc] at hp; exact absurd hp (by simp)
  | some c =>
    rw [hc] at hp
    simp only [Option.bind_eq_bind, Option.some_bind] at hp
    by_cases hinv : c = INVALID_CB_INDEX
    · simp only [hinv, beq_self_eq_true, if_true, Option.pure_def, Option.some.injEq,
        Prod.mk.injEq] at hp
      rw [← hp.1, hzero] at hnil
      exact absurd hnil (by simp)
    · have hbeq : (c == INVALID_CB_INDEX) = false := by simpa using hinv
      simp only [hbeq, Bool.false_eq_true, if_false, Option.bind_eq_some] at hp
      obtain ⟨field, -, hp⟩ := hp
      refine ⟨c, rfl, hinv, ?_⟩
      split at hp
      · simp only [Option.pure_def, Option.some.injEq, Prod.mk.injEq] at hp
        rw [← hp.1, hzero] at hnil
        exact absurd hnil (by simp)
      · simp only [Option.pure_def, Option.some.injEq, Prod.mk.injEq] at hp
        exact hp.2.symm

/-- C21: on a witness stack of fewer than `2^32` fields, with `Script{}` a nil script, if
`parseTapScript` returns a non-nil script `ts` with index `i`, then `SetTapScript(ts, i)`
does every index access in range (the control-block index `c` is valid and below
`len(fields)`, `i < len(fields)`, `cb[0]` exists, and the last field exists when there
is an annex), it returns without printing a diagnostic, and afterwards
`GetTapScript()` is `(ts with its data fields typed, i)`. -/
theorem SetTapScript_after_parseTapScript (E : ScriptEnv) (s : Segwit E.Script)
    (ts : E.Script) (i : Nat) (hzero : E.IsNil E.zero = true)
    (hlen : s.fields.length < 4294967296)
    (hp : parseTapScript E s = some (ts, i)) (hnil : E.IsNil ts = false) :
    (∃ c cb b a, s.GetControlBlockIndex = some c ∧ c ≠ INVALID_CB_INDEX ∧
      c < s.fields.length ∧ i < s.fields.length ∧ i + 1 = c ∧
      s.fields[c]? = some cb ∧ cb.rawBytes[0]? = some b ∧
      s.HasAnnex = some a ∧ (a = true → ∃ last, s.fields[s.fields.length - 1]? = some last)) ∧
    (∃ s', SetTapScript E s ts i = some (s', []) ∧
      s'.GetTapScript = (SetTapScript.loop E (E.GetFields ts) 0 ts, i) ∧
      ((∀ sc f t, E.IsOrdinal (E.SetFieldType sc f t) = E.IsOrdinal sc) →
        s'.GetTapScript = (Spec.relabelTapScript E ts, i)) ∧
      s'.fields.map (fun x => x.rawBytes) = s.fields.map (fun x => x.rawBytes)) := by
  obtain ⟨c, hc, hv, hi⟩ := parseTapScript_some E s ts i hzero hp hnil
  obtain ⟨a, ha, hn, hcu, cb, hcb, h33, -⟩ := GetControlBlockIndex_valid s c hc hv
  have hk1 : (if a then 1 else 0 : Nat) ≤ 1 := by split <;> omega
  rw [uint32_of_lt _ (by omega)] at hcu
  rw [← hcu] at hcb
  obtain ⟨b, hb⟩ : ∃ b, cb.rawBytes[0]? = some b :=
    ⟨_, List.getElem?_eq_getElem (by omega)⟩
  have hsub : uint32Sub c 1 = c - 1 := uint32Sub_one c (by omega) (by omega)
  rw [hsub] at hi
  have hil : i < s.fields.length := by omega
  obtain ⟨s', hs', htap, hidx, -, hraw, -⟩ :=
    SetTapScript_result E s ts i c a cb b ha hc hv hcb hb hil
  simp only [hnil, Bool.false_eq_true, if_false] at hs'
  refine ⟨⟨c, cb, b, a, hc, hv, by omega, hil, by omega, hcb, hb, ha, ?_⟩,
    ⟨s', hs', ?_, ?_, hraw⟩⟩
  · intro _
    exact ⟨_, List.getElem?_eq_getElem (by omega)⟩
  · simp only [GetTapScript, htap, hidx]
  · intro hOrd
    have hl := SetTapScript_loop_eq E (E.IsOrdinal ts) hOrd (E.GetFields ts) 0 ts rfl
    simp only [Nat.cast_zero] at hl
    simp only [GetTapScript, htap, hidx, hl]
    rfl

/-- The statement of C21 at `[01, tap script, control block]`. -/
theorem SetTapScript_after_parseTapScript_witness :
    ∃ s', SetTapScript SpecModel.env
        (NewSegwit SpecModel.env [[1], SpecModel.sampleTapScript, SpecModel.sampleControlBlock])
        (SpecModel.env.NewScript SpecModel.sampleTapScript) 1 = some (s', []) ∧
      s'.GetTapScript =
        (SetTapScript.loop SpecModel.env
          (SpecModel.env.GetFields (SpecModel.env.NewScript SpecModel.sampleTapScript)) 0
          (SpecModel.env.NewScript SpecModel.sampleTapScript), 1) := by
  obtain ⟨s', h1, h2, -⟩ := (SetTapScript_after_parseTapScript SpecModel.env
    (NewSegwit SpecModel.env [[1], SpecModel.sampleTapScript, SpecModel.sampleControlBlock])
    (SpecModel.env.NewScript SpecModel.sampleTapScript) 1 (by decide) (by decide) (by decide)
    (by decide)).2
  exact ⟨s', h1, h2⟩

end Segwit

namespace Segwit

theorem setType_some (fields fields' : List SegwitField) (k : Int) (dataType : String)
    (h : setType fields k dataType = some fields') :
    fields'.length = fields.length ∧ 0 ≤ k ∧ k.toNat < fields.length := by
  unfold setType at h
  simp only [Option.bind_eq_bind, Option.bind_eq_some, Option.pure_def, Option.some.injEq] at h
  obtain ⟨field, hf, rfl⟩ := h
  unfold index at hf
  split at hf
  · exact absurd hf (by simp)
  · rename_i hk
    refine ⟨List.length_set _ _ _, by omega, ?_⟩
    rcases Nat.lt_or_ge k.toNat fields.length with hlt | hge
    · exact hlt
    · rw [List.getElem?_eq_none hge] at hf
      exact absurd hf (by simp)

/-- Whatever the script environment is: when `GetControlBlockIndex()` is
`INVALID_CB_INDEX` on a stack of at most `2^32 - 1` fields, `SetTapScript` aborts, at
`s.fields[cbIndex]` at the latest. -/
theorem SetTapScript_abort_without_control_block (E : ScriptEnv) (s : Segwit E.Script)
    (ts : E.Script) (i : Nat) (hc : s.GetControlBlockIndex = some INVALID_CB_INDEX)
    (hlen : s.fields.length ≤ 4294967295) :
    SetTapScript E s ts i = none := by
  cases h : SetTapScript E s ts i with
  | none => rfl
  | some r =>
    exfalso
    obtain ⟨s', out⟩ := r
    have e_cb : GetControlBlockIndex
        { s with tapScript := ts, tapScriptIndex := i } = some INVALID_CB_INDEX := hc
    unfold SetTapScript at h
    simp only [e_cb, Option.bind_eq_bind, Option.some_bind, Option.bind_eq_some,
      Option.pure_def] at h
    obtain ⟨cbLeafCount, -, annex, -, h⟩ := h
    cases annex with
    | false =>
      simp only [Bool.false_eq_true, if_false, Option.some_bind, Option.bind_eq_some] at h
      obtain ⟨fields2, h2, pe, -, version, -, fields3, h3, -⟩ := h
      have l2 := setType_some _ _ _ _ h2
      have l3 := setType_some _ _ _ _ h3
      simp only [INVALID_CB_INDEX] at l3
      omega
    | true =>
      simp only [if_true, Option.bind_eq_some] at h
      obtain ⟨annexField, -, fields1, h1, fields2, h2, pe, -, version, -,
        fields3, h3, -⟩ := h
      have l1 := setType_some _ _ _ _ h1
      have l2 := setType_some _ _ _ _ h2
      have l3 := setType_some _ _ _ _ h3
      simp only [INVALID_CB_INDEX] at l3
      omega

/-- C22 does not hold of the code: on the stack `[01, tap script]`, which has no valid
control block, `GetControlBlockIndex()` is `INVALID_CB_INDEX` and `SetTapScript(ts, 1)`
with `1 < len(fields)` aborts instead of completing. -/
theorem SetTapScript_aborts_after_diagnostic :
    (NewSegwit SpecModel.env [[0x01], SpecModel.sampleTapScript]).GetControlBlockIndex
      = some INVALID_CB_INDEX ∧
    1 < (NewSegwit SpecModel.env [[0x01], SpecModel.sampleTapScript]).fields.length ∧
    SetTapScript SpecModel.env (NewSegwit SpecModel.env [[0x01], SpecModel.sampleTapScript])
      (SpecModel.env.NewScript SpecModel.sampleTapScript) 1 = none :=
  ⟨by decide, by decide, Option.isNone_iff_eq_none.mp (by decide)⟩

end Segwit

namespace Input

/-- Whatever the script environment is: for a spend type that is none of the
P2SH-wrapped and witness types, a non-nil redeem script and an input script of zero
fields, `setFieldTypes` aborts at `inputScriptFieldTypes[inputScriptFieldCount - 1]`. -/
theorem setFieldTypes_abort_zero_fields {E : ScriptEnv} (I : InputEnv E) (i : Input E.Script)
    (hst : i.spendType ∉ ["P2SH-P2WPKH", "P2SH-P2WSH", "P2WPKH", "P2WSH",
      "Taproot Key Path", "Taproot Script Path"])
    (hred : E.IsNil i.redeemScript = false)
    (hzero : I.GetFields i.inputScript = []) :
    setFieldTypes I i = none := by
  simp only [List.mem_cons, List.mem_singleton, List.not_mem_nil, or_false, not_or] at hst
  obtain ⟨h1, h2, h3, h4, h5, h6⟩ := hst
  have b1 : (i.spendType == "P2SH-P2WPKH") = false := by simpa using h1
  have b2 : (i.spendType == "P2SH-P2WSH") = false := by simpa using h2
  have b3 : (i.spendType == "P2WPKH") = false := by simpa using h3
  have b4 : (i.spendType == "P2WSH") = false := by simpa using h4
  have b5 : (i.spendType == "Taproot Key Path") = false := by simpa using h5
  have b6 : (i.spendType == "Taproot Script Path") = false := by simpa using h6
  unfold setFieldTypes
  simp only [b1, b2, b3, b4, b5, b6, Bool.or_self, Bool.false_eq_true, if_false, hzero,
    setFieldTypes.loop, hred, Bool.not_false, if_true, Option.bind_eq_bind, Option.some_bind,
    List.length_nil, Nat.cast_zero]
  have : setString [] ((0 : Int) - 1) "Serialized Redeem Script" = none := by
    unfold setString
    simp
  rw [this]
  rfl

end Input

/-- C23 does not hold of the code: `NewInput` with the legacy spend type `P2SH`, the
non-nil redeem script `OP_1 OP_CHECKSIG`, an input script of zero fields and an empty
segwit aborts instead of returning an Input. -/
theorem NewInput_aborts_on_zero_fields :
    SpecModel.env.IsNil (SpecModel.env.NewScript [0x51, 0xac]) = false ∧
    SpecModel.inputEnv.GetFields (SpecModel.env.NewScript []) = [] ∧
    NewInput SpecModel.inputEnv false [] 0 "P2SH" (SpecModel.env.NewScript [])
      (SpecModel.env.NewScript [0x51, 0xac]) (NewSegwit SpecModel.env []) 0 = none :=
  ⟨by decide, by decide, Option.isNone_iff_eq_none.mp (by decide)⟩

namespace App

/-- When `ExitOnError` panics, in terms of the members it reads. -/
theorem ExitOnError_error_iff (s : settingsManager) (msg : String) :
    s.ExitOnError = Except.error msg ↔
      (msg = "Web parameters are not valid." ∧ s.noWeb = true ∧
        (s.addr.length = 0 ∨ s.port = 0)) := by
  unfold settingsManager.ExitOnError
  by_cases h : (s.noWeb && (s.addr.length == 0 || s.port == 0)) = true
  · simp only [h, if_true, Except.error.injEq]
    simp only [Bool.and_eq_true, Bool.or_eq_true, beq_iff_eq] at h
    constructor
    · intro e; exact ⟨e.symm, h.1, h.2⟩
    · intro e; exact e.1.symm
  · simp only [h, if_false]
    simp only [Bool.and_eq_true, Bool.or_eq_true, beq_iff_eq] at h
    constructor
    · intro e; exact absurd e (by simp)
    · intro e; exact absurd ⟨e.2.1, e.2.2⟩ h

/-- C24 does not hold of the code: with the web interface on and port 0 (the default
settings with `--port=0`) `ExitOnError` returns without a panic, and with the web
interface off and port 0 (`--no-web=on --port=0`) it panics with
`"Web parameters are not valid."`. -/
theorem ExitOnError_web_check_inverted :
    ({ getDefaultSettings with port := 0 } : settingsManager).IsWebOn = true ∧
    ({ getDefaultSettings with port := 0 } : settingsManager).ExitOnError = Except.ok () ∧
    ({ getDefaultSettings with port := 0, noWeb := true } : settingsManager).IsWebOn = false ∧
    ({ getDefaultSettings with port := 0, noWeb := true } : settingsManager).ExitOnError =
      Except.error "Web parameters are not valid." :=
  ⟨by decide, by rfl, by decide, by rfl⟩

/-- Whatever the settings are: `ExitOnError` never panics while the web interface is
on, and with the web interface off it panics exactly when the address is empty or the
port is 0. -/
theorem ExitOnError_by_IsWebOn (s : settingsManager) :
    (s.IsWebOn = true → s.ExitOnError = Except.ok ()) ∧
    (s.IsWebOn = false →
      (s.ExitOnError = Except.error "Web parameters are not valid." ↔
        (s.addr.length = 0 ∨ s.port = 0))) := by
  unfold settingsManager.IsWebOn settingsManager.ExitOnError
  cases hn : s.noWeb
  · simp
  · by_cases h : s.addr.length = 0 ∨ s.port = 0
    · have : (s.addr.length == 0 || s.port == 0) = true := by simpa using h
      simp [this, h]
    · have : (s.addr.length == 0 || s.port == 0) = false := by simpa using h
      simp [this, h]

end App

end Scantool
